import Mathlib

/-!
Verification development for the outbound-campaign scheduling and
paced-broadcast engine (`outbound-campaign.service.ts` together with
`outbound-campaign.repository.ts`).

The TypeScript service is shallowly embedded: persistence (Prisma) becomes
explicit state passing over a campaign record and a list of lead records,
timestamps become natural numbers (milliseconds), JS floating-point
arithmetic in the pacing planner becomes exact rational arithmetic, and
thrown exceptions become explicit error values.  The lead list is kept in
creation order, so the repository's `orderBy createdAt asc` is list order.
The external WhatsApp capability is an oracle: a readiness flag plus a
per-lead success predicate; every `sendText` call is additionally recorded
in a log so that "the messenger was (not) called" is a statement about the
state.
-/

-- ---------------------------------------------------------------------------
-- Enums (from the Prisma client as used by the service)
-- ---------------------------------------------------------------------------

inductive OutboundCampaignStatus where
  | DRAFT | SCHEDULED | RUNNING | COMPLETED | CANCELLED
deriving DecidableEq, Repr

inductive OutboundLeadStatus where
  | QUEUED | NEED_RETRY | IN_PROGRESS | MESSAGE_SUCCESSFUL
deriving DecidableEq, Repr

inductive TemplateStatus where
  | DRAFT | ACTIVE | ARCHIVED
deriving DecidableEq, Repr

inductive OutboundCampaignType where
  | SINGLE | MULTIPLE
deriving DecidableEq, Repr

/-- The service's `LEAD_SUCCESS_STATUS` shim resolves to `MESSAGE_SUCCESSFUL`
when the enum has it (it does in this model). -/
def LEAD_SUCCESS_STATUS : OutboundLeadStatus := .MESSAGE_SUCCESSFUL

-- ---------------------------------------------------------------------------
-- Errors (the service's thrown exceptions)
-- ---------------------------------------------------------------------------

inductive Err where
  | notFound
  | forbidden
  | invalidTransition
  | terminalCampaign
  | nameInvalid
  | notFuture
  | needStart
  | badDuration
  | durationNotPositive
  | agentDisabled
  | terminalSend
  | waNotConnected
  | noActiveTemplate
  | invalidPhone
deriving DecidableEq, Repr

-- ---------------------------------------------------------------------------
-- Data model
-- ---------------------------------------------------------------------------

/-- A JSON-ish scalar value as stored on a lead (scalar column or a
custom-fields entry). -/
inductive Value where
  | vNull
  | vStr (s : String)
  | vNum (n : Int)
  | vBool (b : Bool)
deriving DecidableEq, Repr

/-- Lead record.  `fields` models the lead's own scalar columns as seen by the
template renderer (`key in lead`); `customFields` models the JSONB
custom-fields map.  The list of leads of a campaign is kept in `createdAt`
ascending order, so ordering data is positional. -/
structure Lead where
  id : Nat
  phoneNumber : String
  status : OutboundLeadStatus
  attemptsMade : Nat
  lastAttemptAt : Option Nat
  fields : List (String × Value)
  customFields : List (String × Value)
deriving DecidableEq, Repr

/-- Template record.  `vars` embeds the source's `variables` column (the
word is reserved in Lean). -/
structure Template where
  id : Nat
  body : String
  vars : List String
  status : TemplateStatus
deriving DecidableEq, Repr

/-- Pacing runtime state (`config.scheduledBroadcast.pacing`).  ISO strings
become millisecond timestamps. -/
structure Pacing where
  startAt : Nat
  endAt : Nat
  initialTotal : Option Nat
  sent : Nat
  completed : Bool
deriving DecidableEq, Repr

/-- `ScheduledBroadcastConfig` — the `config.scheduledBroadcast` blob. -/
structure Cfg where
  templateId : Option Nat
  filterStatus : Option (List OutboundLeadStatus)
  limit : Option Nat
  batchSize : Option Nat
  batchIntervalMs : Option Nat
  duration : Option String
  durationMs : Option Nat
  pacing : Option Pacing
deriving DecidableEq, Repr

/-- Campaign record.  `config` models the `scheduledBroadcast` key of the
campaign's JSON config (the only key this core reads or writes). -/
structure Campaign where
  id : Nat
  agentId : Nat
  name : String
  ctype : OutboundCampaignType
  status : OutboundCampaignStatus
  agentEnabled : Bool
  scheduledAt : Option Nat
  startedAt : Option Nat
  completedAt : Option Nat
  cancelledAt : Option Nat
  assignedTemplate : Option Nat
  totalMessages : Nat
  leadsCount : Nat
  answeredLeadsCount : Nat
  lastActivityAt : Option Nat
  config : Option Cfg
deriving DecidableEq, Repr

-- ---------------------------------------------------------------------------
-- Constants and the transition table
-- ---------------------------------------------------------------------------

def DEFAULT_BATCH_SIZE : Nat := 50
def DEFAULT_THROTTLE_MS : Nat := 200
def MAX_BATCHES_PER_TICK : Nat := 20

/-- The `ALLOWED` transition table. -/
def ALLOWED : OutboundCampaignStatus → List OutboundCampaignStatus
  | .DRAFT => [.SCHEDULED, .RUNNING, .CANCELLED]
  | .SCHEDULED => [.RUNNING, .CANCELLED]
  | .RUNNING => [.COMPLETED, .CANCELLED]
  | .COMPLETED => []
  | .CANCELLED => []

/-- The `TERMINAL` set. -/
def TERMINAL (s : OutboundCampaignStatus) : Bool :=
  s = .COMPLETED ∨ s = .CANCELLED

-- ---------------------------------------------------------------------------
-- Small helpers (`toJid`, `validateName`, `parseHumanDuration`)
-- ---------------------------------------------------------------------------

/-- `phone.replace(/\D+/g, '')` — keep only the decimal digits. -/
def digitsOf (s : String) : String :=
  String.mk (s.data.filter Char.isDigit)

/-- `toJid` returns the digit-normalised JID, or `none` where the source
throws `BadRequestException('Invalid phone number')`. -/
def toJid (phone : String) : Option String :=
  if digitsOf phone = "" then none
  else some (digitsOf phone ++ "@s.whatsapp.net")

/-- `validateName`: trimmed name non-empty and at most 120 characters. -/
def validateName (name : String) : Option Err :=
  if name.trim = "" then some .nameInvalid
  else if 120 < name.trim.length then some .nameInvalid
  else none

def digitsToNat (cs : List Char) : Nat :=
  cs.foldl (fun acc c => acc * 10 + (c.toNat - '0'.toNat)) 0

/-- JS whitespace (the ASCII part of `\s`). -/
def isJsSpace (c : Char) : Bool :=
  c = ' ' ∨ c = '\t' ∨ c = '\n' ∨ c = '\r' ∨ c = '\x0b' ∨ c = '\x0c'

instance {e a : Type} [DecidableEq e] [DecidableEq a] :
    DecidableEq (Except e a) := fun x y =>
  match x, y with
  | .ok u, .ok v =>
    if h : u = v then .isTrue (by rw [h]) else .isFalse (by simp [h])
  | .error u, .error v =>
    if h : u = v then .isTrue (by rw [h]) else .isFalse (by simp [h])
  | .ok _, .error _ => .isFalse (by simp)
  | .error _, .ok _ => .isFalse (by simp)

/-- `String(s).trim()` on the character list (strip whitespace both ends). -/
def jsTrim (s : String) : List Char :=
  ((s.data.dropWhile isJsSpace).reverse.dropWhile isJsSpace).reverse

/-- `parseHumanDuration`: `^(\d+)\s*([smhd])$` (case-insensitive) on the
trimmed string, multiplied out to milliseconds. -/
def parseHumanDuration (s : String) : Except Err Nat :=
  let cs := jsTrim s
  let digits := cs.takeWhile Char.isDigit
  let rest := (cs.dropWhile Char.isDigit).dropWhile isJsSpace
  if digits.isEmpty then .error .badDuration
  else
    match rest with
    | [u] =>
      let n := digitsToNat digits
      let ul := u.toLower
      if ul = 's' then .ok (n * 1000)
      else if ul = 'm' then .ok (n * 60000)
      else if ul = 'h' then .ok (n * 3600000)
      else if ul = 'd' then .ok (n * 86400000)
      else .error .badDuration
    | _ => .error .badDuration

-- ---------------------------------------------------------------------------
-- Template rendering (`renderTemplate`, `stringify`)
-- ---------------------------------------------------------------------------

/-- `stringify`: `null`/`undefined` render as `''`; scalars via `String(v)`. -/
def stringify (v : Option Value) : String :=
  match v with
  | none => ""
  | some .vNull => ""
  | some (.vStr s) => s
  | some (.vNum n) => toString n
  | some (.vBool b) => if b then "true" else "false"

/-- Look a declared variable up on the lead: own scalar field first
(`key in lead`), then the custom-fields map. -/
def leadLookup (lead : Lead) (key : String) : Option Value :=
  match lead.fields.lookup key with
  | some v => some v
  | none => lead.customFields.lookup key

def isIdentChar (c : Char) : Bool :=
  (('A' ≤ c ∧ c ≤ 'Z') ∨ ('a' ≤ c ∧ c ≤ 'z') ∨ ('0' ≤ c ∧ c ≤ '9') ∨ c = '_')

/-- Try to match `\s*([A-Za-z0-9_]+)\s*\x7d\x7d` at the head of `l`
(the part of the placeholder regex after the opening braces); returns the
captured key and the rest of the input. -/
def matchPlaceholder (l : List Char) : Option (String × List Char) :=
  let l1 := l.dropWhile isJsSpace
  let key := l1.takeWhile isIdentChar
  let l2 := (l1.dropWhile isIdentChar).dropWhile isJsSpace
  if key.isEmpty then none
  else
    match l2 with
    | '}' :: '}' :: r => some (String.mk key, r)
    | _ => none

/-- Left-to-right global regex replacement of `{{\s*([A-Za-z0-9_]+)\s*}}`
written with structural fuel; fuel equal to the input length always
suffices because every step consumes at least one character. -/
def renderGo (subst : String → String) : Nat → List Char → List Char
  | 0, l => l
  | _ + 1, [] => []
  | fuel + 1, '{' :: '{' :: rest =>
    match matchPlaceholder rest with
    | some (key, r) => (subst key).data ++ renderGo subst fuel r
    | none => '{' :: renderGo subst fuel ('{' :: rest)
  | fuel + 1, c :: rest => c :: renderGo subst fuel rest

/-- The replacer the service builds: the `Map` holds exactly the declared
variables, each mapped to the stringified lead value; keys outside the map
render as `''`. -/
def substOf (vars : List String) (lead : Lead) (key : String) : String :=
  if vars.contains key then stringify (leadLookup lead key) else ""

/-- Apply the substitution to every placeholder of the body. -/
def renderApply (subst : String → String) (body : String) : String :=
  String.mk (renderGo subst body.data.length body.data)

/-- `renderTemplate(body, variables, lead)`. -/
def renderTemplate (body : String) (vars : List String) (lead : Lead) : String :=
  if body = "" ∨ vars = [] then body
  else renderApply (substOf vars lead) body

-- ---------------------------------------------------------------------------
-- State machine and CRUD-path operations
-- ---------------------------------------------------------------------------

/-- `assertTransition(from, to)`: `none` when allowed, the thrown error
otherwise. -/
def assertTransition (src dst : OutboundCampaignStatus) : Option Err :=
  if (ALLOWED src).contains dst then none else some .invalidTransition

/-- `setStatus`: validate the transition, then write.  The result is the
stored record after the call together with the error, if any; on error the
store is untouched. -/
def setStatus (c : Campaign) (dst : OutboundCampaignStatus) :
    Campaign × Option Err :=
  match assertTransition c.status dst with
  | some e => (c, some e)
  | none => ({ c with status := dst }, none)

/-- `UpdateOutboundCampaignDto`.  `scheduledAt` distinguishes an absent key
from an explicit `null` (clear). -/
structure UpdateDto where
  name : Option String
  ctype : Option OutboundCampaignType
  status : Option OutboundCampaignStatus
  agentEnabled : Option Bool
  scheduledAt : Option (Option Nat)
  config : Option (Option Cfg)
deriving DecidableEq, Repr

/-- The repository's `update`: apply exactly the defined dto fields. -/
def repoUpdate (c : Campaign) (dto : UpdateDto) : Campaign :=
  { c with
    name := dto.name.getD c.name
    ctype := dto.ctype.getD c.ctype
    status := dto.status.getD c.status
    agentEnabled := dto.agentEnabled.getD c.agentEnabled
    config := dto.config.getD c.config
    scheduledAt := dto.scheduledAt.getD c.scheduledAt }

/-- The service's `update`: terminal-status guard on type/status/schedule/
enable fields, then validations, then the repository write. -/
def update (now : Nat) (c : Campaign) (dto : UpdateDto) :
    Campaign × Option Err :=
  if TERMINAL c.status ∧
      (dto.ctype.isSome ∨ dto.status.isSome ∨ dto.scheduledAt.isSome ∨
        dto.agentEnabled.isSome) then
    (c, some .terminalCampaign)
  else
    match dto.name with
    | some n =>
      match validateName n with
      | some e => (c, some e)
      | none => updateAfterName now c dto
    | none => updateAfterName now c dto
where
  /-- The checks after `validateName`: `ensureFuture` for a non-null
  `scheduledAt`, then `assertTransition` for a requested status. -/
  updateAfterName (now : Nat) (c : Campaign) (dto : UpdateDto) :
      Campaign × Option Err :=
    match dto.scheduledAt with
    | some (some t) =>
      if t ≤ now then (c, some .notFuture) else updateAfterSched c dto
    | _ => updateAfterSched c dto
  updateAfterSched (c : Campaign) (dto : UpdateDto) : Campaign × Option Err :=
    match dto.status with
    | some dst =>
      match assertTransition c.status dst with
      | some e => (c, some e)
      | none => (repoUpdate c dto, none)
    | none => (repoUpdate c dto, none)

/-- The service's `schedule`: terminal guard, `ensureFuture`, write
`scheduledAt`, and flip a `DRAFT` campaign to `SCHEDULED`. -/
def schedule (now : Nat) (c : Campaign) (scheduledAt : Nat) :
    Campaign × Option Err :=
  if TERMINAL c.status then (c, some .terminalCampaign)
  else if scheduledAt ≤ now then (c, some .notFuture)
  else
    let c1 := { c with scheduledAt := some scheduledAt }
    if c.status = .DRAFT then
      ({ c1 with status := .SCHEDULED }, none)
    else (c1, none)

-- ---------------------------------------------------------------------------
-- `scheduleBroadcast`
-- ---------------------------------------------------------------------------

/-- The `settings` argument of `scheduleBroadcast`
(`ScheduledBroadcastConfig` as provided by the caller). -/
structure SBSettings where
  templateId : Option Nat
  filterStatus : Option (List OutboundLeadStatus)
  limit : Option Nat
  batchSize : Option Nat
  batchIntervalMs : Option Nat
  duration : Option String
  durationMs : Option Int
deriving DecidableEq, Repr

structure SBParams where
  agentId : Nat
  startAt : Option Nat
  startIn : Option String
  settings : Option SBSettings
deriving DecidableEq, Repr

/-- Resolve the optional pacing-window length: a human `duration` string is
parsed and must be positive; otherwise a truthy numeric `durationMs` is
taken (0 is falsy in JS and silently disables pacing, a negative value is
truthy and rejected). -/
def resolveDurationMs (settings : Option SBSettings) : Except Err (Option Nat) :=
  match settings with
  | none => .ok none
  | some s =>
    match s.duration with
    | some ds =>
      match parseHumanDuration ds with
      | .error e => .error e
      | .ok d => if d = 0 then .error .durationNotPositive else .ok (some d)
    | none =>
      match s.durationMs with
      | some dm =>
        if dm = 0 then .ok none
        else if dm ≤ 0 then .error .durationNotPositive
        else .ok (some dm.toNat)
      | none => .ok none

/-- `scheduleBroadcast`: persist the broadcast settings under the campaign's
config key, set `scheduledAt`, initialise pacing state when a duration is
given, and flip a `DRAFT`/`SCHEDULED` status to `SCHEDULED`.  There is no
write before a possible error, so the error case returns no record. -/
def scheduleBroadcast (now : Nat) (c : Campaign) (p : SBParams) :
    Except Err Campaign :=
  if c.agentId ≠ p.agentId then .error .forbidden
  else
    match startTime now p with
    | .error e => .error e
    | .ok whenTs =>
      if whenTs ≤ now then .error .notFuture
      else
        match resolveDurationMs p.settings with
        | .error e => .error e
        | .ok durationMs =>
          let s := p.settings
          let cfg : Cfg :=
            { templateId := s.bind SBSettings.templateId
              filterStatus := some ((s.bind SBSettings.filterStatus).getD
                [.QUEUED])
              limit := s.bind SBSettings.limit
              batchSize := some ((s.bind SBSettings.batchSize).getD
                DEFAULT_BATCH_SIZE)
              batchIntervalMs := some ((s.bind SBSettings.batchIntervalMs).getD
                DEFAULT_THROTTLE_MS)
              duration := s.bind SBSettings.duration
              durationMs := durationMs
              pacing := durationMs.map fun d =>
                { startAt := whenTs
                  endAt := whenTs + d
                  initialTotal := none
                  sent := 0
                  completed := false } }
          let status' :=
            if c.status = .DRAFT ∨ c.status = .SCHEDULED then
              OutboundCampaignStatus.SCHEDULED
            else c.status
          .ok { c with
                  config := some cfg
                  scheduledAt := some whenTs
                  status := status' }
where
  /-- `startAt ?? (startIn ? now + parseHumanDuration(startIn) : null)`. -/
  startTime (now : Nat) (p : SBParams) : Except Err Nat :=
    match p.startAt with
    | some t => .ok t
    | none =>
      match p.startIn with
      | some s =>
        match parseHumanDuration s with
        | .error e => .error e
        | .ok d => .ok (now + d)
      | none => .error .needStart

-- ---------------------------------------------------------------------------
-- The batch dispatcher (`runCampaignBatched`)
-- ---------------------------------------------------------------------------

/-- External collaborators: WhatsApp connection status, the per-lead send
oracle (`true` = `sendText` resolves, `false` = it throws), and the
template store. -/
structure Env where
  waReady : Bool
  sendOk : Nat → Bool
  templates : List (Nat × Template)

/-- The mutable store for one campaign: its record, its leads in creation
order, and a log of every `sendText` call that was made. -/
structure St where
  campaign : Campaign
  leads : List Lead
  sentLog : List (String × String)
deriving DecidableEq

structure Counters where
  attempted : Nat
  succeeded : Nat
  failed : Nat
deriving DecidableEq, Repr

structure RunResult where
  attempted : Nat
  succeeded : Nat
  failed : Nat
deriving DecidableEq, Repr

structure RunParams where
  agentId : Nat
  templateId : Option Nat
  leadStatuses : List OutboundLeadStatus
  limit : Option Nat
  batchSize : Option Nat
  throttleMs : Option Nat
  maxBatches : Option Nat
deriving DecidableEq, Repr

def leadMatches (filter : List OutboundLeadStatus) (l : Lead) : Bool :=
  filter.contains l.status

def countMatching (filter : List OutboundLeadStatus) (db : List Lead) : Nat :=
  (db.filter (leadMatches filter)).length

/-- `attempted >= limit` where a missing limit is `Infinity`. -/
def limitReached (limit : Option Nat) (attempted : Nat) : Bool :=
  match limit with
  | none => false
  | some l => l ≤ attempted

/-- `Math.max(0, Math.min(batchSize, limit - attempted))`. -/
def remainingForRun (limit : Option Nat) (attempted batchSize : Nat) : Nat :=
  match limit with
  | none => batchSize
  | some l => min batchSize (l - attempted)

/-- Update the stored lead with the given id. -/
def updateLead (db : List Lead) (i : Nat) (f : Lead → Lead) : List Lead :=
  db.map fun l => if l.id = i then f l else l

/-- The success write: `status := LEAD_SUCCESS_STATUS`,
`attemptsMade: {increment: 1}`, `lastAttemptAt := now`. -/
def succUpd (now : Nat) (l : Lead) : Lead :=
  { l with
    status := LEAD_SUCCESS_STATUS
    attemptsMade := l.attemptsMade + 1
    lastAttemptAt := some now }

/-- The failure write: `status := NEED_RETRY`, `attemptsMade: {increment: 1}`,
`lastAttemptAt := now`. -/
def failUpd (now : Nat) (l : Lead) : Lead :=
  { l with
    status := OutboundLeadStatus.NEED_RETRY
    attemptsMade := l.attemptsMade + 1
    lastAttemptAt := some now }

/-- The per-lead loop of one batch.  Returns the counters, this batch's
success count, the state, and the uncaught error if one was thrown
(`toJid` is called outside the per-lead try/catch). -/
def runLeads (env : Env) (now : Nat) (limit : Option Nat) (tpl : Template) :
    List Lead → Counters → Nat → St → Counters × Nat × St × Option Err
  | [], acc, bs, st => (acc, bs, st, none)
  | l :: ls, acc, bs, st =>
    if limitReached limit acc.attempted then (acc, bs, st, none)
    else
      let acc1 : Counters := { acc with attempted := acc.attempted + 1 }
      match toJid l.phoneNumber with
      | none => (acc1, bs, st, some .invalidPhone)
      | some jid =>
        let text := renderTemplate tpl.body tpl.vars l
        let st1 : St := { st with sentLog := st.sentLog ++ [(jid, text)] }
        if env.sendOk l.id then
          runLeads env now limit tpl ls
            { acc1 with succeeded := acc1.succeeded + 1 } (bs + 1)
            { st1 with leads := updateLead st1.leads l.id (succUpd now) }
        else
          runLeads env now limit tpl ls
            { acc1 with failed := acc1.failed + 1 } bs
            { st1 with leads := updateLead st1.leads l.id (failUpd now) }

/-- `repo.recordActivity` as called after a batch: atomic increment of
`totalMessages` plus `lastActivityAt`. -/
def recordBatchActivity (st : St) (bs now : Nat) : St :=
  { st with campaign := { st.campaign with
      totalMessages := st.campaign.totalMessages + bs
      lastActivityAt := some now } }

/-- The batch loop: up to `fuel` (`maxBatches`) iterations, each fetching up
to `remainingForRun` matching leads in creation order. -/
def runBatches (env : Env) (now : Nat) (limit : Option Nat) (tpl : Template)
    (batchSize : Nat) (filter : List OutboundLeadStatus) :
    Nat → Counters → St → Counters × St × Option Err
  | 0, acc, st => (acc, st, none)
  | fuel + 1, acc, st =>
    if limitReached limit acc.attempted then (acc, st, none)
    else
      let r := remainingForRun limit acc.attempted batchSize
      if r = 0 then (acc, st, none)
      else
        let batch := (st.leads.filter (leadMatches filter)).take r
        if batch.isEmpty then (acc, st, none)
        else
          match runLeads env now limit tpl batch acc 0 st with
          | (acc1, bs, st1, some e) =>
            -- an uncaught throw unwinds past recordActivity and the loop
            let _ := bs
            (acc1, st1, some e)
          | (acc1, bs, st1, none) =>
            let st2 := if 0 < bs then recordBatchActivity st1 bs now else st1
            if batch.length < r then (acc1, st2, none)
            else runBatches env now limit tpl batchSize filter fuel acc1 st2

def effBatchSize (p : RunParams) : Nat := max 1 (p.batchSize.getD DEFAULT_BATCH_SIZE)
def effMaxBatches (p : RunParams) : Nat := max 1 (p.maxBatches.getD MAX_BATCHES_PER_TICK)
def effStatuses (p : RunParams) : List OutboundLeadStatus :=
  if p.leadStatuses = [] then [.QUEUED] else p.leadStatuses

/-- `pickTemplateToUse`: explicit override id, else the campaign's assigned
template; the template must exist and be ACTIVE. -/
def pickTemplateToUse (env : Env) (c : Campaign) (explicit : Option Nat) :
    Option Template :=
  match explicit with
  | some tid => requireActive (env.templates.lookup tid)
  | none =>
    match c.assignedTemplate with
    | some tid => requireActive (env.templates.lookup tid)
    | none => none
where
  requireActive : Option Template → Option Template
    | some t => if t.status = .ACTIVE then some t else none
    | none => none

/-- The dispatcher preconditions, in source order: campaign ownership
(`ensureCampaignForAgent`), `ensureSendable`, `ensureWhatsAppReady`, and
template resolution.  Returns the resolved template. -/
def precheck (env : Env) (p : RunParams) (c : Campaign) : Except Err Template :=
  if c.agentId ≠ p.agentId then .error .forbidden
  else if ¬ c.agentEnabled then .error .agentDisabled
  else if TERMINAL c.status then .error .terminalSend
  else if ¬ env.waReady then .error .waNotConnected
  else
    match pickTemplateToUse env c p.templateId with
    | none => .error .noActiveTemplate
    | some tpl => .ok tpl

/-- `runCampaignBatched`.  On an uncaught throw the state reached so far is
kept (the store writes already happened) and the error is reported. -/
def runCampaignBatched (env : Env) (now : Nat) (p : RunParams) (st : St) :
    St × Except Err RunResult :=
  match precheck env p st.campaign with
  | .error e => (st, .error e)
  | .ok tpl =>
    let st0 : St :=
      if st.campaign.status = .SCHEDULED then
        { st with campaign := { st.campaign with status := .RUNNING } }
      else st
    match runBatches env now p.limit tpl (effBatchSize p) (effStatuses p)
        (effMaxBatches p) ⟨0, 0, 0⟩ st0 with
    | (_, st1, some e) => (st1, .error e)
    | (acc, st1, none) =>
      let pending := countMatching [.QUEUED, .NEED_RETRY] st1.leads
      let st2 : St :=
        if pending = 0 then
          { st1 with campaign := { st1.campaign with
              status := .COMPLETED
              completedAt := some now } }
        else st1
      (st2, .ok ⟨acc.attempted, acc.succeeded, acc.failed⟩)

-- ---------------------------------------------------------------------------
-- The pacing planner and the per-campaign tick body (`runScheduledTick`)
-- ---------------------------------------------------------------------------

/-- `cfg.durationMs && pacing?.startAtISO && pacing?.endAtISO` — a zero
`durationMs` is falsy in JS. -/
def hasPacing (cfg : Cfg) : Bool :=
  cfg.durationMs.getD 0 ≠ 0 ∧ cfg.pacing.isSome

/-- The progress clamp of the in-window branch, in exact arithmetic:
`Math.max(0, Math.min(1, elapsedMs / durationMs))`. -/
def pacingProgress (now startAt endAt : Nat) : ℚ :=
  max 0 (min 1 (((now : ℚ) - (startAt : ℚ)) / ((endAt : ℚ) - (startAt : ℚ))))

/-- The pacing block of `runScheduledTick` for one campaign: given `now` and
the count of leads currently matching the filter statuses, produce the
paced per-tick limit (`undefined` when pacing is not configured), the
mutated config, and the `needPersistPacing` flag. -/
def pacingStep (now cnt : Nat) (cfg : Cfg) : Option Int × Cfg × Bool :=
  match cfg.pacing with
  | none => (none, cfg, false)
  | some p =>
    if cfg.durationMs.getD 0 = 0 then (none, cfg, false)
    else
      -- on first tick, snapshot the pool size
      let snap := p.initialTotal.isNone
      let p1 : Pacing :=
        if p.initialTotal.isNone then { p with initialTotal := some cnt } else p
      let initialTotal : Nat := p1.initialTotal.getD 0
      let alreadySent : Nat := p1.sent
      if now < p1.startAt then
        (some 0, { cfg with pacing := some p1 }, snap)
      else if p1.endAt ≤ now then
        let flip := ! p1.completed
        let p2 : Pacing := if p1.completed then p1 else { p1 with completed := true }
        (some (cnt : Int), { cfg with pacing := some p2 }, snap || flip)
      else
        let target : Int :=
          ⌊(initialTotal : ℚ) * pacingProgress now p1.startAt p1.endAt⌋
        let allowed0 : Int := target - (alreadySent : Int)
        let allowed1 : Int := if allowed0 < 0 then 0 else allowed0
        let allowed2 : Int := if 0 < allowed1 then min allowed1 (cnt : Int) else allowed1
        (some allowed2, { cfg with pacing := some p1 }, snap)

/-- `runScheduledTick`'s due-campaign query predicate: `agentEnabled`,
status `SCHEDULED` or `RUNNING`, and `scheduledAt ≤ now`. -/
def dueFilter (c : Campaign) (now : Nat) : Bool :=
  c.agentEnabled &&
    decide (c.status = OutboundCampaignStatus.SCHEDULED ∨
      c.status = OutboundCampaignStatus.RUNNING) &&
    (match c.scheduledAt with
     | some t => decide (t ≤ now)
     | none => false)

/-- `runScheduledTick`'s options. -/
structure TickOpts where
  defaultBatchSize : Option Nat
  defaultThrottleMs : Option Nat
  maxBatchesPerCampaign : Option Nat
deriving DecidableEq, Repr

/-- A `processed` entry of the tick summary. -/
structure TickEntry where
  campaignId : Nat
  attempted : Nat
  succeeded : Nat
  failed : Nat
deriving DecidableEq, Repr

/-- Empty config used when the campaign has no `scheduledBroadcast` key. -/
def emptyCfg : Cfg :=
  { templateId := none, filterStatus := none, limit := none, batchSize := none
    batchIntervalMs := none, duration := none, durationMs := none, pacing := none }

/-- Persist the (possibly mutated) broadcast config back onto the campaign
record (`persistScheduledBroadcastConfig`). -/
def persistCfg (st : St) (cfg : Cfg) : St :=
  { st with campaign := { st.campaign with config := some cfg } }

/-- The body of `runScheduledTick`'s per-campaign loop: read the config,
compute the paced limit, run the batched dispatcher, add this tick's
attempts to `pacing.sent`, and persist the config.  Returns the updated
state and the `processed` entry (`none` when the campaign's processing threw
and was caught and logged). -/
def processCampaign (env : Env) (opts : TickOpts) (now : Nat) (st : St) :
    St × Option TickEntry :=
  let c := st.campaign
  let cfg := c.config.getD emptyCfg
  let batchSize := max 1 (cfg.batchSize.getD (opts.defaultBatchSize.getD DEFAULT_BATCH_SIZE))
  let throttleMs := max 0 (cfg.batchIntervalMs.getD (opts.defaultThrottleMs.getD DEFAULT_THROTTLE_MS))
  let maxBatches := max 1 (opts.maxBatchesPerCampaign.getD MAX_BATCHES_PER_TICK)
  let statusFilter :=
    if (cfg.filterStatus.getD []) = [] then [OutboundLeadStatus.QUEUED]
    else cfg.filterStatus.getD []
  let cnt := countMatching statusFilter st.leads
  let (pacedLimit, cfg1, needPersist) := pacingStep now cnt cfg
  let finalLimit : Option Int :=
    match pacedLimit with
    | some v => some v
    | none => cfg.limit.map fun n => (n : Int)
  if finalLimit = some 0 then
    let st1 := if needPersist then persistCfg st cfg1 else st
    (st1, some ⟨c.id, 0, 0, 0⟩)
  else
    let p : RunParams :=
      { agentId := c.agentId
        templateId := match cfg.templateId with
          | some t => some t
          | none => c.assignedTemplate
        leadStatuses := statusFilter
        limit := finalLimit.map Int.toNat
        batchSize := some batchSize
        throttleMs := some throttleMs
        maxBatches := some maxBatches }
    match runCampaignBatched env now p st with
    | (st1, .error _) => (st1, none)
    | (st1, .ok res) =>
      if hasPacing cfg then
        let p2 := (cfg1.pacing.getD ⟨0, 0, none, 0, false⟩)
        let cfg2 := { cfg1 with pacing := some { p2 with sent := p2.sent + res.attempted } }
        (persistCfg st1 cfg2, some ⟨c.id, res.attempted, res.succeeded, res.failed⟩)
      else
        let st2 := if needPersist then persistCfg st1 cfg1 else st1
        (st2, some ⟨c.id, res.attempted, res.succeeded, res.failed⟩)

-- ---------------------------------------------------------------------------
-- Shared lemmas about the lead store
-- ---------------------------------------------------------------------------

theorem updateLead_map {α : Type} (g : Lead → α) (f : Lead → Lead)
    (hf : ∀ x, g (f x) = g x) (db : List Lead) (i : Nat) :
    (updateLead db i f).map g = db.map g := by
  induction db with
  | nil => rfl
  | cons x rest ih =>
    simp only [updateLead, List.map] at ih ⊢
    by_cases h : x.id = i <;> simp [h, hf, ih]

theorem updateLead_not_mem (db : List Lead) (i : Nat) (f : Lead → Lead)
    (h : ∀ y ∈ db, y.id ≠ i) : updateLead db i f = db := by
  induction db with
  | nil => rfl
  | cons x rest ih =>
    have hx : x.id ≠ i := h x (by simp)
    simp only [updateLead, List.map, if_neg hx]
    have := ih fun y hy => h y (by simp [hy])
    simpa [updateLead] using this

theorem mem_updateLead_of_ne {x : Lead} {db : List Lead} (i : Nat)
    (f : Lead → Lead) (hx : x ∈ db) (hne : x.id ≠ i) :
    x ∈ updateLead db i f := by
  have : (if x.id = i then f x else x) ∈ updateLead db i f :=
    List.mem_map_of_mem _ hx
  simpa [if_neg hne] using this

theorem countMatching_cons (filter : List OutboundLeadStatus) (x : Lead)
    (rest : List Lead) :
    countMatching filter (x :: rest) =
      (if leadMatches filter x then 1 else 0) + countMatching filter rest := by
  by_cases h : leadMatches filter x <;>
    simp [countMatching, List.filter, h, Nat.add_comm]

theorem countMatching_updateLead (filter : List OutboundLeadStatus)
    (f : Lead → Lead) (l : Lead)
    (hl : leadMatches filter l = true)
    (hfl : leadMatches filter (f l) = false) :
    ∀ db : List Lead, (db.map Lead.id).Nodup → l ∈ db →
      countMatching filter (updateLead db l.id f) + 1 =
        countMatching filter db := by
  intro db
  induction db with
  | nil => intro _ h; cases h
  | cons x rest ih =>
    intro hnd hmem
    have hnd1 : (rest.map Lead.id).Nodup := (List.nodup_cons.mp hnd).2
    have hx : x.id ∉ rest.map Lead.id := (List.nodup_cons.mp hnd).1
    by_cases hxe : x.id = l.id
    · have hxl : x = l := by
        rcases List.mem_cons.mp hmem with h | h
        · exact h.symm
        · exact absurd (hxe ▸ List.mem_map_of_mem Lead.id h) hx
      subst hxl
      have hrest : updateLead rest x.id f = rest := by
        refine updateLead_not_mem rest x.id f fun y hy hcon => hx ?_
        exact hcon ▸ List.mem_map_of_mem Lead.id hy
      have hgoal : updateLead (x :: rest) x.id f = f x :: rest := by
        show List.map _ (x :: rest) = _
        rw [List.map_cons]
        exact congrArg₂ _ (by simp) hrest
      rw [hgoal, countMatching_cons, countMatching_cons, hl, hfl]
      norm_num
      omega
    · have hlr : l ∈ rest := by
        rcases List.mem_cons.mp hmem with h | h
        · subst h; exact absurd rfl hxe
        · exact h
      have hih := ih hnd1 hlr
      have hgoal : updateLead (x :: rest) l.id f = x :: updateLead rest l.id f := by
        show List.map _ (x :: rest) = _
        rw [List.map_cons]
        exact congrArg₂ _ (by simp [hxe]) rfl
      rw [hgoal, countMatching_cons, countMatching_cons]
      omega

theorem mem_filter_take {p : Lead → Bool} {db : List Lead} {r : Nat}
    {x : Lead} (h : x ∈ (db.filter p).take r) : x ∈ db ∧ p x = true := by
  have h1 : x ∈ db.filter p := List.mem_of_mem_take h
  exact ⟨(List.mem_filter.mp h1).1, (List.mem_filter.mp h1).2⟩

theorem nodup_filter_take_ids {db : List Lead} (p : Lead → Bool) (r : Nat)
    (h : (db.map Lead.id).Nodup) :
    (((db.filter p).take r).map Lead.id).Nodup := by
  have hs : ((db.filter p).take r).Sublist db :=
    (List.take_sublist _ _).trans (List.filter_sublist db)
  exact h.sublist (hs.map Lead.id)

theorem phones_ok_of_map_eq {db db1 : List Lead}
    (hmap : db1.map Lead.phoneNumber = db.map Lead.phoneNumber)
    (h : ∀ x ∈ db, digitsOf x.phoneNumber ≠ "") :
    ∀ x ∈ db1, digitsOf x.phoneNumber ≠ "" := by
  intro x hx
  have : x.phoneNumber ∈ db.map Lead.phoneNumber := by
    rw [← hmap]; exact List.mem_map_of_mem Lead.phoneNumber hx
  rcases List.mem_map.mp this with ⟨y, hy, hyx⟩
  rw [← hyx]; exact h y hy

theorem countMatching_eq_zero {filter : List OutboundLeadStatus}
    {db : List Lead} (h : countMatching filter db = 0) :
    ∀ x ∈ db, leadMatches filter x = false := by
  intro x hx
  have : db.filter (leadMatches filter) = [] := List.length_eq_zero.mp h
  by_cases hm : leadMatches filter x
  · exact absurd (List.mem_filter.mpr ⟨hx, hm⟩) (by simp [this])
  · simpa using hm

-- ---------------------------------------------------------------------------
-- C3: illegal transitions are rejected without a write
-- ---------------------------------------------------------------------------

/-- C3: for every pair of statuses whose target is not in the `ALLOWED`
table, `setStatus` returns the `InvalidTransition` error and the stored
status is unchanged. -/
theorem setStatus_invalid_rejected (c : Campaign)
    (dst : OutboundCampaignStatus) (h : dst ∉ ALLOWED c.status) :
    setStatus c dst = (c, some Err.invalidTransition) ∧
      (setStatus c dst).1.status = c.status := by
  constructor
  · simp [setStatus, assertTransition, h]
  · simp [setStatus, assertTransition, h]

/-- Concrete witness for C3: a `COMPLETED` campaign refuses `RUNNING`. -/
def campCompleted : Campaign :=
  { id := 1, agentId := 9, name := "c", ctype := .SINGLE, status := .COMPLETED
    agentEnabled := true, scheduledAt := some 50, startedAt := none
    completedAt := some 90, cancelledAt := none, assignedTemplate := none
    totalMessages := 3, leadsCount := 3, answeredLeadsCount := 0
    lastActivityAt := none, config := none }

theorem setStatus_invalid_rejected_witness :
    setStatus campCompleted .RUNNING =
        (campCompleted, some Err.invalidTransition) ∧
      (setStatus campCompleted .RUNNING).1.status = campCompleted.status :=
  setStatus_invalid_rejected campCompleted .RUNNING (by decide)

-- ---------------------------------------------------------------------------
-- C10: template rendering of empty/undeclared/missing variables
-- ---------------------------------------------------------------------------

/-- C10: `renderTemplate` returns the body untouched when the declared
variable list is empty or the body is empty; with a non-empty variable list
it applies `substOf` to every placeholder, and `substOf` maps every
undeclared key, and every declared key missing on both the lead and its
custom fields, to the empty string. -/
theorem renderTemplate_spec (body : String) (vars : List String) (lead : Lead) :
    ((vars = [] ∨ body = "") → renderTemplate body vars lead = body) ∧
    (vars ≠ [] →
      renderTemplate body vars lead = renderApply (substOf vars lead) body) ∧
    (∀ key, key ∉ vars → substOf vars lead key = "") ∧
    (∀ key, key ∈ vars → leadLookup lead key = none →
      substOf vars lead key = "") := by
  refine ⟨?_, ?_, ?_, ?_⟩
  · intro h
    rcases h with h | h <;> simp [renderTemplate, h]
  · intro h
    by_cases hb : body = ""
    · subst hb
      simp [renderTemplate, renderApply, renderGo]
    · simp [renderTemplate, hb, h]
  · intro key hk
    simp [substOf, hk]
  · intro key _ hnone
    by_cases h : vars.contains key <;> simp [substOf, h, hnone, stringify]

def leadW : Lead := ⟨1, "555", .QUEUED, 0, none, [], []⟩

theorem renderTemplate_spec_witness :
    renderTemplate "hi \x7b\x7bname\x7d\x7d" [] leadW = "hi \x7b\x7bname\x7d\x7d" ∧
      substOf ["name"] leadW "other" = "" ∧
      substOf ["name"] leadW "name" = "" := by
  refine ⟨(renderTemplate_spec _ [] leadW).1 (Or.inl rfl), ?_, ?_⟩
  · exact (renderTemplate_spec "x" ["name"] leadW).2.2.1 "other" (by decide)
  · exact (renderTemplate_spec "x" ["name"] leadW).2.2.2 "name" (by decide)
      (by decide)

-- ---------------------------------------------------------------------------
-- C8: Scenario A of `scheduleBroadcast`
-- ---------------------------------------------------------------------------

/-- C8: on a `DRAFT` campaign, `scheduleBroadcast(startIn = "5m",
settings.duration = "10m")` succeeds with status `SCHEDULED`,
`scheduledAt = now + 5min`, `pacing.startAt = now + 5min`,
`pacing.endAt = now + 15min`, `sent = 0`, `completed = false`, and
`initialTotal` unset. -/
theorem scheduleBroadcast_scenarioA (now : Nat) (c : Campaign)
    (h : c.status = .DRAFT) :
    scheduleBroadcast now c
      ⟨c.agentId, none, some "5m",
        some ⟨none, none, none, none, none, some "10m", none⟩⟩ =
    .ok { c with
          config := some
            ⟨none, some [.QUEUED], none, some 50, some 200, some "10m",
              some 600000, some ⟨now + 300000, now + 900000, none, 0, false⟩⟩
          scheduledAt := some (now + 300000)
          status := .SCHEDULED } := by
  have h5 : parseHumanDuration "5m" = .ok 300000 := by decide
  have h10 : parseHumanDuration "10m" = .ok 600000 := by decide
  simp only [scheduleBroadcast, scheduleBroadcast.startTime, h5, h10]
  simp only [resolveDurationMs]
  norm_num
  rw [h10]
  simp [h, DEFAULT_BATCH_SIZE, DEFAULT_THROTTLE_MS, Nat.add_assoc]

def campDraft : Campaign :=
  { id := 2, agentId := 9, name := "d", ctype := .SINGLE, status := .DRAFT
    agentEnabled := true, scheduledAt := none, startedAt := none
    completedAt := none, cancelledAt := none, assignedTemplate := none
    totalMessages := 0, leadsCount := 0, answeredLeadsCount := 0
    lastActivityAt := none, config := none }

theorem scheduleBroadcast_scenarioA_witness :
    scheduleBroadcast 1000 campDraft
      ⟨campDraft.agentId, none, some "5m",
        some ⟨none, none, none, none, none, some "10m", none⟩⟩ =
    .ok { campDraft with
          config := some
            ⟨none, some [.QUEUED], none, some 50, some 200, some "10m",
              some 600000, some ⟨1000 + 300000, 1000 + 900000, none, 0, false⟩⟩
          scheduledAt := some (1000 + 300000)
          status := .SCHEDULED } :=
  scheduleBroadcast_scenarioA 1000 campDraft (by decide)

-- ---------------------------------------------------------------------------
-- C1: the in-window pacing allowance formula
-- ---------------------------------------------------------------------------

/-- C1: on a tick inside the pacing window (`startAt ≤ now < endAt`) of a
pacing-enabled campaign, the per-tick allowance equals
`min(max(0, floor(initialTotal * clamp((now-startAt)/(endAt-startAt), 0, 1))
- sent), remaining)` where `remaining` is the count of leads currently
matching the filter statuses (also the value `initialTotal` is snapshotted
to when still unset), and the allowance is non-negative. -/
theorem pacing_inwindow_allowance (now cnt : Nat) (cfg : Cfg) (d : Nat)
    (p : Pacing) (hd : cfg.durationMs = some d) (hd0 : d ≠ 0)
    (hp : cfg.pacing = some p) (h1 : p.startAt ≤ now) (h2 : now < p.endAt) :
    (pacingStep now cnt cfg).1 =
      some (min (max 0
        (⌊((p.initialTotal.getD cnt : Nat) : ℚ) *
            pacingProgress now p.startAt p.endAt⌋ - (p.sent : Int)))
        (cnt : Int)) ∧
    0 ≤ min (max 0
        (⌊((p.initialTotal.getD cnt : Nat) : ℚ) *
            pacingProgress now p.startAt p.endAt⌋ - (p.sent : Int)))
        (cnt : Int) := by
  constructor
  · rw [pacingStep, hp]
    simp only [hd, Option.getD_some, if_neg hd0]
    cases hq : p.initialTotal with
    | none =>
      simp only [hq, Option.isNone_none, ite_true, Option.getD_some,
        Option.getD_none]
      rw [if_neg (by omega), if_neg (by omega)]
      refine congrArg some ?_
      generalize (⌊((cnt : Nat) : ℚ) *
        pacingProgress now p.startAt p.endAt⌋ : Int) = t
      split_ifs <;> omega
    | some T =>
      simp only [hq, Option.isNone_some, Bool.false_eq_true, ite_false,
        Option.getD_some]
      rw [if_neg (by omega), if_neg (by omega)]
      refine congrArg some ?_
      generalize (⌊((T : Nat) : ℚ) *
        pacingProgress now p.startAt p.endAt⌋ : Int) = t
      split_ifs <;> omega
  · have hc : (0 : Int) ≤ (cnt : Int) := by positivity
    generalize (⌊((p.initialTotal.getD cnt : Nat) : ℚ) *
      pacingProgress now p.startAt p.endAt⌋ : Int) = t
    omega

/-- Concrete pacing state for the C1 witness: window `[100, 200)`,
`initialTotal = 8`, `sent = 1`. -/
def pC1 : Pacing := ⟨100, 200, some 8, 1, false⟩

def cfgC1 : Cfg :=
  ⟨none, none, none, none, none, none, some 60000, some pC1⟩

theorem pacing_inwindow_allowance_witness :
    (pacingStep 150 10 cfgC1).1 =
      some (min (max 0
        (⌊((pC1.initialTotal.getD 10 : Nat) : ℚ) *
            pacingProgress 150 pC1.startAt pC1.endAt⌋ - (pC1.sent : Int)))
        ((10 : Nat) : Int)) ∧
    0 ≤ min (max 0
        (⌊((pC1.initialTotal.getD 10 : Nat) : ℚ) *
            pacingProgress 150 pC1.startAt pC1.endAt⌋ - (pC1.sent : Int)))
        ((10 : Nat) : Int) :=
  pacing_inwindow_allowance 150 10 cfgC1 60000 pC1 rfl (by decide) rfl
    (by decide) (by decide)

-- ---------------------------------------------------------------------------
-- C5: when `initialTotal` is snapshotted
-- ---------------------------------------------------------------------------

/-- C5 (amended): on every tick that processes a pacing-enabled campaign,
`initialTotal` ends up set — it keeps its old value when already set (so it
is never overwritten), and otherwise it is snapshotted to the current
matching-lead count on this tick, whatever `now` is relative to `startAt`
(the snapshot happens before the window check, so a tick with
`now < startAt` also assigns it), with the persist flag raised. -/
theorem pacing_initialTotal_once (now cnt : Nat) (cfg : Cfg) (d : Nat)
    (p : Pacing) (hd : cfg.durationMs = some d) (hd0 : d ≠ 0)
    (hp : cfg.pacing = some p) :
    ((pacingStep now cnt cfg).2.1.pacing.map Pacing.initialTotal =
      some (some (p.initialTotal.getD cnt))) ∧
    (p.initialTotal.isNone → (pacingStep now cnt cfg).2.2 = true) := by
  constructor
  · rw [pacingStep, hp]
    simp only [hd, Option.getD_some, if_neg hd0]
    cases hq : p.initialTotal with
    | none =>
      simp only [hq, Option.isNone_none, ite_true]
      split_ifs <;> simp
    | some T =>
      simp only [hq, Option.isNone_some, Bool.false_eq_true, ite_false]
      split_ifs <;> simp [hq]
  · intro hnone
    rw [pacingStep, hp]
    simp only [hd, Option.getD_some, if_neg hd0, hnone]
    split_ifs <;> simp

/-- Sample ACTIVE template and environment shared by the concrete
tick scenarios. -/
def tplHello : Template := ⟨7, "hello", [], .ACTIVE⟩

def envOk : Env := ⟨true, fun _ => true, [(7, tplHello)]⟩

def mkLeadQ (i : Nat) : Lead := ⟨i, "555", .QUEUED, 0, none, [], []⟩

def opts1 : TickOpts := ⟨none, none, some 1⟩

def pC5 : Pacing := ⟨1000, 2000, none, 0, false⟩

def cfgC5 : Cfg :=
  ⟨none, none, none, some 1, some 0, some "1m", some 60000, some pC5⟩

def campC5 : Campaign :=
  { id := 3, agentId := 9, name := "p", ctype := .SINGLE, status := .SCHEDULED
    agentEnabled := true, scheduledAt := some 5, startedAt := none
    completedAt := none, cancelledAt := none, assignedTemplate := some 7
    totalMessages := 0, leadsCount := 7, answeredLeadsCount := 0
    lastActivityAt := none, config := some cfgC5 }

def stC5 : St := ⟨campC5, (List.range 7).map mkLeadQ, []⟩

/-- C5 counterexample: a due tick (`scheduledAt = 5 ≤ now = 500`) on a
pacing-enabled campaign whose window has not started (`now = 500 <
startAt = 1000`) and whose `initialTotal` is unset nonetheless assigns
`initialTotal := 7` (the matching-lead count) and persists it — refuting
"the assignment happens on the first tick whose now ≥ startAt (never on a
tick with now < startAt)". -/
theorem pacing_initialTotal_before_start_cex :
    dueFilter campC5 500 = true ∧
    cfgC5.pacing.map Pacing.startAt = some 1000 ∧
    500 < 1000 ∧
    cfgC5.pacing.map Pacing.initialTotal = some none ∧
    ((processCampaign envOk opts1 500 stC5).1.campaign.config.getD
        emptyCfg).pacing.map Pacing.initialTotal = some (some 7) := by
  decide

theorem pacing_initialTotal_once_witness :
    ((pacingStep 500 7 cfgC5).2.1.pacing.map Pacing.initialTotal =
      some (some (pC5.initialTotal.getD 7))) ∧
    (pacingStep 500 7 cfgC5).2.2 = true :=
  ⟨(pacing_initialTotal_once 500 7 cfgC5 60000 pC5 rfl (by decide) rfl).1,
    (pacing_initialTotal_once 500 7 cfgC5 60000 pC5 rfl (by decide) rfl).2
      (by decide)⟩

-- ---------------------------------------------------------------------------
-- C4: mutation of terminal campaigns
-- ---------------------------------------------------------------------------

/-- C4 counterexample: `scheduleBroadcast` performs no terminal-status
check — on a `COMPLETED` campaign it succeeds and rewrites `scheduledAt`
(here from 50 to 500) and the broadcast configuration, refuting the claim
that every such operation is rejected with an error and leaves the record
unchanged. -/
theorem scheduleBroadcast_terminal_cex :
    TERMINAL campCompleted.status = true ∧
    (scheduleBroadcast 100 campCompleted
        ⟨9, some 500, none, none⟩).toOption.map Campaign.scheduledAt =
      some (some 500) ∧
    campCompleted.scheduledAt = some 50 := by
  decide

/-- C4 (amended): on a `COMPLETED` or `CANCELLED` campaign, `update`
rejects any dto touching the type/status/scheduledAt/agentEnabled fields
and leaves the record unchanged, and `schedule` rejects unconditionally
and leaves the record unchanged; `scheduleBroadcast`, however, has no
terminal-status guard: whenever it succeeds on such a campaign it leaves
the status unchanged but writes a new broadcast configuration and a future
`scheduledAt`. -/
theorem terminal_mutation_guards (now : Nat) (c : Campaign) (dto : UpdateDto)
    (t : Nat) (prm : SBParams) (hT : TERMINAL c.status = true) :
    ((dto.ctype.isSome ∨ dto.status.isSome ∨ dto.scheduledAt.isSome ∨
        dto.agentEnabled.isSome) →
      update now c dto = (c, some Err.terminalCampaign)) ∧
    schedule now c t = (c, some Err.terminalCampaign) ∧
    (∀ c2, scheduleBroadcast now c prm = .ok c2 →
      c2.status = c.status ∧ c2.config.isSome ∧
        ∃ w, now < w ∧ c2.scheduledAt = some w) := by
  have hnd : ¬(c.status = OutboundCampaignStatus.DRAFT ∨
      c.status = OutboundCampaignStatus.SCHEDULED) := by
    revert hT; cases c.status <;> simp [TERMINAL]
  refine ⟨?_, ?_, ?_⟩
  · intro h
    simp [update, hT, h]
  · simp [schedule, hT]
  · intro c2 h
    rw [scheduleBroadcast] at h
    split at h
    · simp at h
    · split at h
      · simp at h
      · rename_i w hw
        split at h
        · simp at h
        · rename_i hfut
          split at h
          · simp at h
          · rw [Except.ok.injEq] at h
            subst h
            refine ⟨by simp [hnd], by simp, w, by omega, by simp⟩

def dtoStatus : UpdateDto := ⟨none, none, some .RUNNING, none, none, none⟩

theorem terminal_mutation_guards_witness :
    update 100 campCompleted dtoStatus =
        (campCompleted, some Err.terminalCampaign) ∧
      schedule 100 campCompleted 200 =
        (campCompleted, some Err.terminalCampaign) := by
  have h := terminal_mutation_guards 100 campCompleted dtoStatus 200
    ⟨9, some 500, none, none⟩ (by decide)
  exact ⟨h.1 (by decide), h.2.1⟩

-- ---------------------------------------------------------------------------
-- Unfolding equations and preservation lemmas for the dispatcher loops
-- ---------------------------------------------------------------------------

theorem succUpd_id (now : Nat) (x : Lead) : (succUpd now x).id = x.id := rfl
theorem failUpd_id (now : Nat) (x : Lead) : (failUpd now x).id = x.id := rfl
theorem succUpd_phone (now : Nat) (x : Lead) :
    (succUpd now x).phoneNumber = x.phoneNumber := rfl
theorem failUpd_phone (now : Nat) (x : Lead) :
    (failUpd now x).phoneNumber = x.phoneNumber := rfl

theorem runLeads_cons_break (env : Env) (now : Nat) (limit : Option Nat)
    (tpl : Template) (l : Lead) (ls : List Lead) (acc : Counters) (bs : Nat)
    (st : St) (hb : limitReached limit acc.attempted = true) :
    runLeads env now limit tpl (l :: ls) acc bs st = (acc, bs, st, none) := by
  simp [runLeads, hb]

theorem runLeads_cons_badphone (env : Env) (now : Nat) (limit : Option Nat)
    (tpl : Template) (l : Lead) (ls : List Lead) (acc : Counters) (bs : Nat)
    (st : St) (hb : limitReached limit acc.attempted = false)
    (hj : toJid l.phoneNumber = none) :
    runLeads env now limit tpl (l :: ls) acc bs st =
      (⟨acc.attempted + 1, acc.succeeded, acc.failed⟩, bs, st,
        some .invalidPhone) := by
  simp [runLeads, hb, hj]

theorem runLeads_cons_succ (env : Env) (now : Nat) (limit : Option Nat)
    (tpl : Template) (l : Lead) (ls : List Lead) (acc : Counters) (bs : Nat)
    (st : St) (jid : String) (hb : limitReached limit acc.attempted = false)
    (hj : toJid l.phoneNumber = some jid) (hs : env.sendOk l.id = true) :
    runLeads env now limit tpl (l :: ls) acc bs st =
      runLeads env now limit tpl ls
        ⟨acc.attempted + 1, acc.succeeded + 1, acc.failed⟩ (bs + 1)
        ⟨st.campaign, updateLead st.leads l.id (succUpd now),
          st.sentLog ++ [(jid, renderTemplate tpl.body tpl.vars l)]⟩ := by
  simp [runLeads, hb, hj, hs]

theorem runLeads_cons_fail (env : Env) (now : Nat) (limit : Option Nat)
    (tpl : Template) (l : Lead) (ls : List Lead) (acc : Counters) (bs : Nat)
    (st : St) (jid : String) (hb : limitReached limit acc.attempted = false)
    (hj : toJid l.phoneNumber = some jid) (hs : env.sendOk l.id = false) :
    runLeads env now limit tpl (l :: ls) acc bs st =
      runLeads env now limit tpl ls
        ⟨acc.attempted + 1, acc.succeeded, acc.failed + 1⟩ bs
        ⟨st.campaign, updateLead st.leads l.id (failUpd now),
          st.sentLog ++ [(jid, renderTemplate tpl.body tpl.vars l)]⟩ := by
  simp [runLeads, hb, hj, hs]

theorem runLeads_campaign (env : Env) (now : Nat) (limit : Option Nat)
    (tpl : Template) :
    ∀ (batch : List Lead) (acc : Counters) (bs : Nat) (st : St),
    ((runLeads env now limit tpl batch acc bs st).2.2.1).campaign =
      st.campaign := by
  intro batch
  induction batch with
  | nil => intro acc bs st; rfl
  | cons l ls ih =>
    intro acc bs st
    by_cases hb : limitReached limit acc.attempted
    · rw [runLeads_cons_break env now limit tpl l ls acc bs st hb]
    · cases hj : toJid l.phoneNumber with
      | none =>
        rw [runLeads_cons_badphone env now limit tpl l ls acc bs st
          (by simpa using hb) hj]
      | some jid =>
        by_cases hs : env.sendOk l.id
        · rw [runLeads_cons_succ env now limit tpl l ls acc bs st jid
            (by simpa using hb) hj hs]
          exact ih _ _ _
        · rw [runLeads_cons_fail env now limit tpl l ls acc bs st jid
            (by simpa using hb) hj (by simpa using hs)]
          exact ih _ _ _

theorem recordBatchActivity_status (st : St) (bs now : Nat) :
    (recordBatchActivity st bs now).campaign.status = st.campaign.status := rfl

theorem recordBatchActivity_leads (st : St) (bs now : Nat) :
    (recordBatchActivity st bs now).leads = st.leads := rfl

theorem runBatches_campaign_status (env : Env) (now : Nat)
    (limit : Option Nat) (tpl : Template) (batchSize : Nat)
    (filter : List OutboundLeadStatus) :
    ∀ (fuel : Nat) (acc : Counters) (st : St),
    ((runBatches env now limit tpl batchSize filter fuel acc st).2.1).campaign.status =
      st.campaign.status := by
  intro fuel
  induction fuel with
  | zero => intro acc st; rfl
  | succ fuel ih =>
    intro acc st
    rw [runBatches]
    by_cases hb : limitReached limit acc.attempted
    · simp [hb]
    · simp only [hb, Bool.false_eq_true, if_false]
      by_cases hr : remainingForRun limit acc.attempted batchSize = 0
      · simp [hr]
      · simp only [hr, if_false]
        by_cases he : ((st.leads.filter (leadMatches filter)).take
            (remainingForRun limit acc.attempted batchSize)).isEmpty
        · simp [he]
        · simp only [he, Bool.false_eq_true, if_false]
          rcases hrl : runLeads env now limit tpl
            ((st.leads.filter (leadMatches filter)).take
              (remainingForRun limit acc.attempted batchSize)) acc 0 st with
            ⟨acc1, bs, st1, e⟩
          have hcamp : st1.campaign = st.campaign := by
            have := runLeads_campaign env now limit tpl
              ((st.leads.filter (leadMatches filter)).take
                (remainingForRun limit acc.attempted batchSize)) acc 0 st
            rw [hrl] at this
            exact this
          cases e with
          | some err => simp [hcamp]
          | none =>
            simp only []
            split_ifs <;> (try rw [ih]) <;>
              simp [recordBatchActivity, hcamp]

theorem runLeads_ok (env : Env) (now : Nat) (limit : Option Nat)
    (tpl : Template) :
    ∀ (batch : List Lead) (acc : Counters) (bs : Nat) (st : St),
    (∀ x ∈ batch, digitsOf x.phoneNumber ≠ "") →
    ∃ acc1 bs1 st1,
      runLeads env now limit tpl batch acc bs st = (acc1, bs1, st1, none) ∧
      st1.campaign = st.campaign ∧
      st1.leads.map Lead.id = st.leads.map Lead.id ∧
      st1.leads.map Lead.phoneNumber = st.leads.map Lead.phoneNumber ∧
      acc1.attempted ≤ acc.attempted + batch.length := by
  intro batch
  induction batch with
  | nil =>
    intro acc bs st _
    exact ⟨acc, bs, st, rfl, rfl, rfl, rfl, by omega⟩
  | cons l ls ih =>
    intro acc bs st h
    have hdig : digitsOf l.phoneNumber ≠ "" := h l (by simp)
    have hj : toJid l.phoneNumber =
        some (digitsOf l.phoneNumber ++ "@s.whatsapp.net") := by
      simp [toJid, hdig]
    by_cases hb : limitReached limit acc.attempted
    · exact ⟨acc, bs, st,
        runLeads_cons_break env now limit tpl l ls acc bs st hb,
        rfl, rfl, rfl, by omega⟩
    · have hb' : limitReached limit acc.attempted = false := by
        simpa using hb
      by_cases hs : env.sendOk l.id
      · obtain ⟨acc1, bs1, st1, heq, hc, hid, hph, hat⟩ :=
          ih ⟨acc.attempted + 1, acc.succeeded + 1, acc.failed⟩ (bs + 1)
            ⟨st.campaign, updateLead st.leads l.id (succUpd now),
              st.sentLog ++ [(digitsOf l.phoneNumber ++ "@s.whatsapp.net",
                renderTemplate tpl.body tpl.vars l)]⟩
            (fun x hx => h x (by simp [hx]))
        refine ⟨acc1, bs1, st1, ?_, hc, ?_, ?_, ?_⟩
        · rw [runLeads_cons_succ env now limit tpl l ls acc bs st _ hb' hj hs]
          exact heq
        · rw [hid]; exact updateLead_map Lead.id _ (succUpd_id now) _ _
        · rw [hph]
          exact updateLead_map Lead.phoneNumber _ (succUpd_phone now) _ _
        · dsimp only at hat
          simp only [List.length_cons]
          omega
      · have hs' : env.sendOk l.id = false := by simpa using hs
        obtain ⟨acc1, bs1, st1, heq, hc, hid, hph, hat⟩ :=
          ih ⟨acc.attempted + 1, acc.succeeded, acc.failed + 1⟩ bs
            ⟨st.campaign, updateLead st.leads l.id (failUpd now),
              st.sentLog ++ [(digitsOf l.phoneNumber ++ "@s.whatsapp.net",
                renderTemplate tpl.body tpl.vars l)]⟩
            (fun x hx => h x (by simp [hx]))
        refine ⟨acc1, bs1, st1, ?_, hc, ?_, ?_, ?_⟩
        · rw [runLeads_cons_fail env now limit tpl l ls acc bs st _ hb' hj hs']
          exact heq
        · rw [hid]; exact updateLead_map Lead.id _ (failUpd_id now) _ _
        · rw [hph]
          exact updateLead_map Lead.phoneNumber _ (failUpd_phone now) _ _
        · dsimp only at hat
          simp only [List.length_cons]
          omega

theorem runBatches_ok (env : Env) (now : Nat) (limit : Option Nat)
    (tpl : Template) (batchSize : Nat) (filter : List OutboundLeadStatus) :
    ∀ (fuel : Nat) (acc : Counters) (st : St),
    (∀ x ∈ st.leads, digitsOf x.phoneNumber ≠ "") →
    ∃ acc1 st1,
      runBatches env now limit tpl batchSize filter fuel acc st =
        (acc1, st1, none) ∧
      st1.leads.map Lead.id = st.leads.map Lead.id ∧
      st1.leads.map Lead.phoneNumber = st.leads.map Lead.phoneNumber ∧
      acc1.attempted ≤ acc.attempted + fuel * batchSize := by
  intro fuel
  induction fuel with
  | zero =>
    intro acc st _
    exact ⟨acc, st, rfl, rfl, rfl, by omega⟩
  | succ fuel ih =>
    intro acc st h
    rw [runBatches]
    by_cases hb : limitReached limit acc.attempted
    · exact ⟨acc, st, by simp [hb], rfl, rfl, by omega⟩
    · simp only [hb, Bool.false_eq_true, if_false]
      by_cases hr : remainingForRun limit acc.attempted batchSize = 0
      · exact ⟨acc, st, by simp [hr], rfl, rfl, by omega⟩
      · simp only [hr, if_false]
        set batch := (st.leads.filter (leadMatches filter)).take
          (remainingForRun limit acc.attempted batchSize) with hbatch
        by_cases he : batch.isEmpty
        · exact ⟨acc, st, by simp [he], rfl, rfl, by omega⟩
        · simp only [he, Bool.false_eq_true, if_false]
          have hbdig : ∀ x ∈ batch, digitsOf x.phoneNumber ≠ "" := by
            intro x hx
            exact h x (mem_filter_take hx).1
          obtain ⟨acc1, bs1, st1, heq, hc, hid, hph, hat⟩ :=
            runLeads_ok env now limit tpl batch acc 0 st hbdig
          rw [heq]
          have hbl : batch.length ≤ batchSize := by
            have := List.length_take (remainingForRun limit acc.attempted
              batchSize) (st.leads.filter (leadMatches filter))
            have h2 : remainingForRun limit acc.attempted batchSize ≤
                batchSize := by
              cases limit with
              | none => simp [remainingForRun]
              | some L => simp [remainingForRun]
            rw [hbatch, this]
            omega
          have hmul : batchSize ≤ (fuel + 1) * batchSize := by
            have h1 : 1 * batchSize ≤ (fuel + 1) * batchSize :=
              Nat.mul_le_mul_right _ (by omega)
            simpa using h1
          have hmul2 : (fuel + 1) * batchSize = fuel * batchSize + batchSize :=
            by ring
          by_cases hlt : batch.length <
              remainingForRun limit acc.attempted batchSize
          · by_cases hbs : 0 < bs1
            · refine ⟨acc1, recordBatchActivity st1 bs1 now, ?_, ?_, ?_, ?_⟩
              · simp [hbs, hlt]
              · exact hid
              · exact hph
              · omega
            · refine ⟨acc1, st1, ?_, hid, hph, ?_⟩
              · simp [hbs, hlt]
              · omega
          · have hdig1 : ∀ x ∈ st1.leads, digitsOf x.phoneNumber ≠ "" :=
              phones_ok_of_map_eq hph h
            by_cases hbs : 0 < bs1
            · obtain ⟨acc2, st2, heq2, hid2, hph2, hat2⟩ :=
                ih acc1 (recordBatchActivity st1 bs1 now) hdig1
              refine ⟨acc2, st2, ?_, ?_, ?_, ?_⟩
              · simp [hbs, hlt, heq2]
              · rw [hid2]; exact hid
              · rw [hph2]; exact hph
              · omega
            · obtain ⟨acc2, st2, heq2, hid2, hph2, hat2⟩ := ih acc1 st1 hdig1
              refine ⟨acc2, st2, ?_, ?_, ?_, ?_⟩
              · simp [hbs, hlt, heq2]
              · rw [hid2]; exact hid
              · rw [hph2]; exact hph
              · omega

theorem precheck_ok_facts (env : Env) (p : RunParams) (c : Campaign)
    (tpl : Template) (h : precheck env p c = .ok tpl) :
    c.agentId = p.agentId ∧ c.agentEnabled = true ∧
      TERMINAL c.status = false ∧ env.waReady = true ∧
      pickTemplateToUse env c p.templateId = some tpl := by
  rw [precheck] at h
  split_ifs at h with h1 h2 h3 h4
  refine ⟨by omega, h2, by simpa using h3, h4, ?_⟩
  cases hp : pickTemplateToUse env c p.templateId with
  | none => rw [hp] at h; exact absurd h (by simp)
  | some t => rw [hp] at h; simp at h; rw [h]

theorem not_completed_of_not_terminal {s : OutboundCampaignStatus}
    (h : TERMINAL s = false) : s ≠ .COMPLETED := by
  intro heq
  subst heq
  simp [TERMINAL] at h

theorem runCampaignBatched_ok_of_digits (env : Env) (now : Nat) (p : RunParams) (st : St)
    (tpl : Template) (hpre : precheck env p st.campaign = .ok tpl)
    (hdig : ∀ x ∈ st.leads, digitsOf x.phoneNumber ≠ "") :
    ∃ r, (runCampaignBatched env now p st).2 = .ok r := by
  rw [runCampaignBatched, hpre]
  have hleads : (if st.campaign.status = .SCHEDULED then
      { st with campaign := { st.campaign with status := .RUNNING } }
      else st).leads = st.leads := by
    split <;> rfl
  obtain ⟨acc1, st1, heq, _, _, _⟩ :=
    runBatches_ok env now p.limit tpl (effBatchSize p) (effStatuses p)
      (effMaxBatches p) ⟨0, 0, 0⟩
      (if st.campaign.status = .SCHEDULED then
        { st with campaign := { st.campaign with status := .RUNNING } }
        else st)
      (by rw [hleads]; exact hdig)
  dsimp only
  rw [heq]
  exact ⟨⟨acc1.attempted, acc1.succeeded, acc1.failed⟩, rfl⟩

theorem runCampaignBatched_not_completed (env : Env) (now : Nat) (p : RunParams) (st : St)
    (r : RunResult) (x : Lead)
    (hok : (runCampaignBatched env now p st).2 = .ok r)
    (hx : x ∈ (runCampaignBatched env now p st).1.leads)
    (hxs : x.status = .QUEUED ∨ x.status = .NEED_RETRY) :
    (runCampaignBatched env now p st).1.campaign.status ≠ .COMPLETED := by
  rcases hpre : precheck env p st.campaign with e | tpl
  · rw [runCampaignBatched, hpre] at hok
    exact absurd hok (by simp)
  · have hfacts := precheck_ok_facts env p st.campaign tpl hpre
    rcases hrb : runBatches env now p.limit tpl (effBatchSize p)
        (effStatuses p) (effMaxBatches p) ⟨0, 0, 0⟩
        (if st.campaign.status = .SCHEDULED then
          { st with campaign := { st.campaign with status := .RUNNING } }
          else st) with ⟨acc1, st1, e⟩
    have hstat := runBatches_campaign_status env now p.limit tpl
      (effBatchSize p) (effStatuses p) (effMaxBatches p) ⟨0, 0, 0⟩
      (if st.campaign.status = .SCHEDULED then
        { st with campaign := { st.campaign with status := .RUNNING } }
        else st)
    rw [hrb] at hstat
    have hstat1 : st1.campaign.status ≠ .COMPLETED := by
      dsimp only at hstat
      rw [hstat]
      split
      · simp
      · exact not_completed_of_not_terminal hfacts.2.2.1
    cases e with
    | some err =>
      have hrun : runCampaignBatched env now p st = (st1, .error err) := by
        rw [runCampaignBatched, hpre]
        dsimp only
        rw [hrb]
      rw [hrun] at hok
      exact absurd hok (by simp)
    | none =>
      have hrun : runCampaignBatched env now p st =
          (if countMatching [.QUEUED, .NEED_RETRY] st1.leads = 0 then
            { st1 with campaign := { st1.campaign with
                status := .COMPLETED, completedAt := some now } }
          else st1,
          .ok ⟨acc1.attempted, acc1.succeeded, acc1.failed⟩) := by
        rw [runCampaignBatched, hpre]
        dsimp only
        rw [hrb]
      rw [hrun] at hx ⊢
      by_cases hp0 : countMatching [.QUEUED, .NEED_RETRY] st1.leads = 0
      · exfalso
        simp only [hp0, if_pos rfl] at hx
        have hmx := countMatching_eq_zero hp0 x hx
        rcases hxs with hq | hn
        · simp [leadMatches, hq] at hmx
        · simp [leadMatches, hn] at hmx
      · simp only [if_neg hp0]
        exact hstat1

-- ---------------------------------------------------------------------------
-- C6: per-lead messenger failures are isolated
-- ---------------------------------------------------------------------------

/-- C6: when a lead's `sendText` throws, the dispatcher marks exactly that
lead `NEED_RETRY` with `attemptsMade` incremented by one and
`lastAttemptAt := now`, counts it as failed, and continues with the rest of
the batch (the run of `l :: ls` is the run of `ls` from the failure-updated
state, with the messenger call logged); under send-failures alone the whole
run still returns `ok` (a single failure never aborts the batch or the
tick), and the run never marks the campaign `COMPLETED` while some lead is
still `QUEUED`/`NEED_RETRY`. -/
theorem messenger_failure_isolation :
    (∀ (env : Env) (now : Nat) (limit : Option Nat) (tpl : Template)
        (l : Lead) (ls : List Lead) (acc : Counters) (bs : Nat) (st : St)
        (jid : String),
      limitReached limit acc.attempted = false →
      toJid l.phoneNumber = some jid →
      env.sendOk l.id = false →
      runLeads env now limit tpl (l :: ls) acc bs st =
        runLeads env now limit tpl ls
          ⟨acc.attempted + 1, acc.succeeded, acc.failed + 1⟩ bs
          ⟨st.campaign, updateLead st.leads l.id (failUpd now),
            st.sentLog ++ [(jid, renderTemplate tpl.body tpl.vars l)]⟩) ∧
    (∀ (now : Nat) (x : Lead),
      (failUpd now x).status = .NEED_RETRY ∧
      (failUpd now x).attemptsMade = x.attemptsMade + 1 ∧
      (failUpd now x).lastAttemptAt = some now) ∧
    (∀ (env : Env) (now : Nat) (p : RunParams) (st : St) (tpl : Template),
      precheck env p st.campaign = .ok tpl →
      (∀ x ∈ st.leads, digitsOf x.phoneNumber ≠ "") →
      ∃ r, (runCampaignBatched env now p st).2 = .ok r) ∧
    (∀ (env : Env) (now : Nat) (p : RunParams) (st : St) (r : RunResult)
        (x : Lead),
      (runCampaignBatched env now p st).2 = .ok r →
      x ∈ (runCampaignBatched env now p st).1.leads →
      (x.status = .QUEUED ∨ x.status = .NEED_RETRY) →
      (runCampaignBatched env now p st).1.campaign.status ≠ .COMPLETED) := by
  refine ⟨?_, ?_, ?_, ?_⟩
  · intro env now limit tpl l ls acc bs st jid hb hj hs
    exact runLeads_cons_fail env now limit tpl l ls acc bs st jid hb hj hs
  · intro now x
    exact ⟨rfl, rfl, rfl⟩
  · intro env now p st tpl hpre hdig
    exact runCampaignBatched_ok_of_digits env now p st tpl hpre hdig
  · intro env now p st r x hok hx hxs
    exact runCampaignBatched_not_completed env now p st r x hok hx hxs

/-- Sending always fails in this environment. -/
def envFail : Env := ⟨true, fun _ => false, [(7, tplHello)]⟩

def campRun : Campaign :=
  { id := 4, agentId := 9, name := "r", ctype := .SINGLE, status := .RUNNING
    agentEnabled := true, scheduledAt := some 1, startedAt := none
    completedAt := none, cancelledAt := none, assignedTemplate := some 7
    totalMessages := 0, leadsCount := 1, answeredLeadsCount := 0
    lastActivityAt := none, config := none }

def stFail : St := ⟨campRun, [mkLeadQ 0], []⟩

def prmFail : RunParams := ⟨9, none, [], none, some 5, some 0, some 2⟩

theorem messenger_failure_isolation_witness :
    (runLeads envFail 5 none tplHello (mkLeadQ 0 :: []) ⟨0, 0, 0⟩ 0 stFail =
      runLeads envFail 5 none tplHello []
        ⟨0 + 1, 0, 0 + 1⟩ 0
        ⟨stFail.campaign, updateLead stFail.leads (mkLeadQ 0).id (failUpd 5),
          stFail.sentLog ++ [("555@s.whatsapp.net",
            renderTemplate tplHello.body tplHello.vars (mkLeadQ 0))]⟩) ∧
    (failUpd 5 (mkLeadQ 0)).status = .NEED_RETRY ∧
    (∃ r, (runCampaignBatched envFail 5 prmFail stFail).2 = .ok r) ∧
    (runCampaignBatched envFail 5 prmFail stFail).1.campaign.status ≠
      .COMPLETED := by
  refine ⟨?_, ?_, ?_, ?_⟩
  · exact messenger_failure_isolation.1 envFail 5 none tplHello (mkLeadQ 0)
      [] ⟨0, 0, 0⟩ 0 stFail "555@s.whatsapp.net" (by decide) (by decide)
      (by decide)
  · exact (messenger_failure_isolation.2.1 5 (mkLeadQ 0)).1
  · exact messenger_failure_isolation.2.2.1 envFail 5 prmFail stFail tplHello
      (by decide) (by decide)
  · exact messenger_failure_isolation.2.2.2 envFail 5 prmFail stFail
      ⟨1, 0, 1⟩ (failUpd 5 (mkLeadQ 0)) (by decide) (by decide) (by decide)

-- ---------------------------------------------------------------------------
-- Drain lemmas for the batch loop (Scenario B)
-- ---------------------------------------------------------------------------

theorem leadMatches_queued (x : Lead) :
    leadMatches [.QUEUED] x = true ↔ x.status = .QUEUED := by
  simp [leadMatches]

theorem runLeads_drain (env : Env) (now : Nat) (tpl : Template) :
    ∀ (batch : List Lead) (st : St) (acc : Counters) (bs : Nat),
    (st.leads.map Lead.id).Nodup →
    (∀ x ∈ batch, x ∈ st.leads ∧ x.status = .QUEUED) →
    (batch.map Lead.id).Nodup →
    (∀ x ∈ st.leads, digitsOf x.phoneNumber ≠ "") →
    ∃ acc1 bs1 st1,
      runLeads env now none tpl batch acc bs st = (acc1, bs1, st1, none) ∧
      acc1.attempted = acc.attempted + batch.length ∧
      st1.campaign = st.campaign ∧
      st1.leads.map Lead.id = st.leads.map Lead.id ∧
      st1.leads.map Lead.phoneNumber = st.leads.map Lead.phoneNumber ∧
      countMatching [.QUEUED] st.leads =
        countMatching [.QUEUED] st1.leads + batch.length := by
  intro batch
  induction batch with
  | nil =>
    intro st acc bs _ _ _ _
    exact ⟨acc, bs, st, rfl, by simp, rfl, rfl, rfl, by simp⟩
  | cons l ls ih =>
    intro st acc bs hnd hsub hbnd hdig
    have hl : l ∈ st.leads ∧ l.status = .QUEUED := hsub l (by simp)
    have hdigl : digitsOf l.phoneNumber ≠ "" := hdig l hl.1
    have hj : toJid l.phoneNumber =
        some (digitsOf l.phoneNumber ++ "@s.whatsapp.net") := by
      simp [toJid, hdigl]
    have hb : limitReached none acc.attempted = false := rfl
    have hlid : l.id ∉ ls.map Lead.id := (List.nodup_cons.mp hbnd).1
    have hlsnd : (ls.map Lead.id).Nodup := (List.nodup_cons.mp hbnd).2
    by_cases hs : env.sendOk l.id
    · -- success: the lead leaves QUEUED
      have hcnt := countMatching_updateLead [.QUEUED] (succUpd now) l
        (by simp [leadMatches, hl.2])
        (by simp [leadMatches, succUpd, LEAD_SUCCESS_STATUS])
        st.leads hnd hl.1
      set st' : St := ⟨st.campaign, updateLead st.leads l.id (succUpd now),
        st.sentLog ++ [(digitsOf l.phoneNumber ++ "@s.whatsapp.net",
          renderTemplate tpl.body tpl.vars l)]⟩ with hst'
      have hid' : st'.leads.map Lead.id = st.leads.map Lead.id :=
        updateLead_map Lead.id _ (succUpd_id now) _ _
      have hph' : st'.leads.map Lead.phoneNumber =
          st.leads.map Lead.phoneNumber :=
        updateLead_map Lead.phoneNumber _ (succUpd_phone now) _ _
      obtain ⟨acc1, bs1, st1, heq, hat, hc, hid, hph, hm⟩ :=
        ih st' ⟨acc.attempted + 1, acc.succeeded + 1, acc.failed⟩ (bs + 1)
          (by rw [hid']; exact hnd)
          (by
            intro x hx
            refine ⟨mem_updateLead_of_ne l.id (succUpd now)
              (hsub x (by simp [hx])).1 ?_, (hsub x (by simp [hx])).2⟩
            intro hcon
            exact hlid (hcon ▸ List.mem_map_of_mem Lead.id hx))
          hlsnd
          (phones_ok_of_map_eq hph' hdig)
      refine ⟨acc1, bs1, st1, ?_, ?_, ?_, ?_, ?_, ?_⟩
      · rw [runLeads_cons_succ env now none tpl l ls acc bs st _ hb hj hs]
        exact heq
      · dsimp only at hat; simp only [List.length_cons]; omega
      · rw [hc]
      · rw [hid, hid']
      · rw [hph, hph']
      · have hm' : countMatching [.QUEUED] st'.leads =
            countMatching [.QUEUED] st1.leads + ls.length := hm
        have hcnt2 : countMatching [.QUEUED] st'.leads + 1 =
            countMatching [.QUEUED] st.leads := hcnt
        simp only [List.length_cons]
        omega
    · have hs' : env.sendOk l.id = false := by simpa using hs
      have hcnt := countMatching_updateLead [.QUEUED] (failUpd now) l
        (by simp [leadMatches, hl.2])
        (by simp [leadMatches, failUpd])
        st.leads hnd hl.1
      set st' : St := ⟨st.campaign, updateLead st.leads l.id (failUpd now),
        st.sentLog ++ [(digitsOf l.phoneNumber ++ "@s.whatsapp.net",
          renderTemplate tpl.body tpl.vars l)]⟩ with hst'
      have hid' : st'.leads.map Lead.id = st.leads.map Lead.id :=
        updateLead_map Lead.id _ (failUpd_id now) _ _
      have hph' : st'.leads.map Lead.phoneNumber =
          st.leads.map Lead.phoneNumber :=
        updateLead_map Lead.phoneNumber _ (failUpd_phone now) _ _
      obtain ⟨acc1, bs1, st1, heq, hat, hc, hid, hph, hm⟩ :=
        ih st' ⟨acc.attempted + 1, acc.succeeded, acc.failed + 1⟩ bs
          (by rw [hid']; exact hnd)
          (by
            intro x hx
            refine ⟨mem_updateLead_of_ne l.id (failUpd now)
              (hsub x (by simp [hx])).1 ?_, (hsub x (by simp [hx])).2⟩
            intro hcon
            exact hlid (hcon ▸ List.mem_map_of_mem Lead.id hx))
          hlsnd
          (phones_ok_of_map_eq hph' hdig)
      refine ⟨acc1, bs1, st1, ?_, ?_, ?_, ?_, ?_, ?_⟩
      · rw [runLeads_cons_fail env now none tpl l ls acc bs st _ hb hj hs']
        exact heq
      · dsimp only at hat; simp only [List.length_cons]; omega
      · rw [hc]
      · rw [hid, hid']
      · rw [hph, hph']
      · have hm' : countMatching [.QUEUED] st'.leads =
            countMatching [.QUEUED] st1.leads + ls.length := hm
        have hcnt2 : countMatching [.QUEUED] st'.leads + 1 =
            countMatching [.QUEUED] st.leads := hcnt
        simp only [List.length_cons]
        omega

theorem runBatches_drain (env : Env) (now : Nat) (tpl : Template)
    (batchSize : Nat) (hbs : 1 ≤ batchSize) :
    ∀ (fuel : Nat) (acc : Counters) (st : St),
    (st.leads.map Lead.id).Nodup →
    (∀ x ∈ st.leads, digitsOf x.phoneNumber ≠ "") →
    countMatching [.QUEUED] st.leads ≤ fuel * batchSize →
    ∃ acc1 st1,
      runBatches env now none tpl batchSize [.QUEUED] fuel acc st =
        (acc1, st1, none) ∧
      acc1.attempted = acc.attempted + countMatching [.QUEUED] st.leads := by
  intro fuel
  induction fuel with
  | zero =>
    intro acc st _ _ hcnt
    refine ⟨acc, st, rfl, ?_⟩
    omega
  | succ fuel ih =>
    intro acc st hnd hdig hcnt
    rw [runBatches]
    have hb : limitReached none acc.attempted = false := rfl
    have hr : remainingForRun none acc.attempted batchSize = batchSize := rfl
    simp only [hb, Bool.false_eq_true, if_false, hr]
    have hrne : ¬ batchSize = 0 := by omega
    simp only [hrne, if_false]
    set batch := (st.leads.filter (leadMatches [.QUEUED])).take batchSize
      with hbatch
    have hblen : batch.length =
        min batchSize (countMatching [.QUEUED] st.leads) := by
      rw [hbatch, List.length_take]
      rfl
    by_cases he : batch.isEmpty
    · have hcnt0 : countMatching [.QUEUED] st.leads = 0 := by
        have : batch.length = 0 := by
          simp [List.isEmpty_iff] at he
          simp [he]
        omega
      simp only [he, if_true]
      exact ⟨acc, st, rfl, by omega⟩
    · simp only [he, Bool.false_eq_true, if_false]
      have hsub : ∀ x ∈ batch, x ∈ st.leads ∧ x.status = .QUEUED := by
        intro x hx
        have h2 := mem_filter_take hx
        exact ⟨h2.1, (leadMatches_queued x).mp h2.2⟩
      have hbnd : (batch.map Lead.id).Nodup :=
        nodup_filter_take_ids (leadMatches [.QUEUED]) batchSize hnd
      obtain ⟨acc1, bs1, st1, heq, hat, hc, hid, hph, hm⟩ :=
        runLeads_drain env now tpl batch st acc 0 hnd hsub hbnd hdig
      rw [heq]
      dsimp only
      by_cases hlt : batch.length < batchSize
      · have hsmall : countMatching [.QUEUED] st.leads < batchSize := by
          omega
        have hfull : batch.length = countMatching [.QUEUED] st.leads := by
          omega
        by_cases h0 : 0 < bs1
        · simp only [h0, if_true, hlt]
          exact ⟨acc1, recordBatchActivity st1 bs1 now, by simp [hlt], by omega⟩
        · simp only [h0, if_false, hlt]
          exact ⟨acc1, st1, by simp [hlt], by omega⟩
      · have hfull : batch.length = batchSize := by omega
        have hge : batchSize ≤ countMatching [.QUEUED] st.leads := by omega
        have hcnt1 : countMatching [.QUEUED] st1.leads =
            countMatching [.QUEUED] st.leads - batchSize := by omega
        have hmul2 : (fuel + 1) * batchSize = fuel * batchSize + batchSize :=
          by ring
        by_cases h0 : 0 < bs1
        · obtain ⟨acc2, st2, heq2, hat2⟩ :=
            ih acc1 (recordBatchActivity st1 bs1 now)
              (by rw [recordBatchActivity_leads]; rw [hid]; exact hnd)
              (by rw [recordBatchActivity_leads]
                  exact phones_ok_of_map_eq hph hdig)
              (by rw [recordBatchActivity_leads]; omega)
          refine ⟨acc2, st2, ?_, ?_⟩
          · simp [h0, hlt, heq2]
          · rw [hat2]
            rw [recordBatchActivity_leads]
            omega
        · obtain ⟨acc2, st2, heq2, hat2⟩ :=
            ih acc1 st1
              (by rw [hid]; exact hnd)
              (phones_ok_of_map_eq hph hdig)
              (by omega)
          refine ⟨acc2, st2, ?_, ?_⟩
          · simp [h0, hlt, heq2]
          · rw [hat2]
            omega

-- ---------------------------------------------------------------------------
-- C7: Scenario B and the completion transition
-- ---------------------------------------------------------------------------

theorem runCampaignBatched_drain_queued (env : Env) (now : Nat) (p : RunParams) (st : St)
    (tpl : Template)
    (hpre : precheck env p st.campaign = .ok tpl)
    (hnd : (st.leads.map Lead.id).Nodup)
    (hdig : ∀ x ∈ st.leads, digitsOf x.phoneNumber ≠ "")
    (hq : ∀ x ∈ st.leads, x.status = .QUEUED)
    (hlen : st.leads.length = 10)
    (hst : effStatuses p = [.QUEUED])
    (hlim : p.limit = none)
    (hbsz : effBatchSize p = 5)
    (hmb : 2 ≤ effMaxBatches p) :
    ∃ r, (runCampaignBatched env now p st).2 = .ok r ∧ r.attempted = 10 := by
  have hcount : countMatching [.QUEUED] st.leads = 10 := by
    have : st.leads.filter (leadMatches [.QUEUED]) = st.leads :=
      List.filter_eq_self.mpr fun x hx => by
        simp [leadMatches, hq x hx]
    rw [countMatching, this, hlen]
  rw [runCampaignBatched, hpre]
  have hleads : (if st.campaign.status = .SCHEDULED then
      { st with campaign := { st.campaign with status := .RUNNING } }
      else st).leads = st.leads := by
    split <;> rfl
  obtain ⟨acc1, st1, heq, hat⟩ :=
    runBatches_drain env now tpl (effBatchSize p) (by omega)
      (effMaxBatches p) ⟨0, 0, 0⟩
      (if st.campaign.status = .SCHEDULED then
        { st with campaign := { st.campaign with status := .RUNNING } }
        else st)
      (by rw [hleads]; exact hnd)
      (by rw [hleads]; exact hdig)
      (by
        rw [hleads, hcount, hbsz]
        calc 10 ≤ 2 * 5 := by omega
          _ ≤ effMaxBatches p * 5 := Nat.mul_le_mul_right 5 hmb)
  rw [hlim, hst] at *
  dsimp only
  rw [heq]
  refine ⟨⟨acc1.attempted, acc1.succeeded, acc1.failed⟩, rfl, ?_⟩
  rw [hleads, hcount] at hat
  simpa using hat

theorem runCampaignBatched_completes (env : Env) (now : Nat) (p : RunParams) (st : St)
    (r : RunResult)
    (hok : (runCampaignBatched env now p st).2 = .ok r)
    (hcount : countMatching [.QUEUED, .NEED_RETRY]
      (runCampaignBatched env now p st).1.leads = 0) :
    (runCampaignBatched env now p st).1.campaign.status = .COMPLETED ∧
      (runCampaignBatched env now p st).1.campaign.completedAt = some now := by
  rcases hpre : precheck env p st.campaign with e | tpl
  · rw [runCampaignBatched, hpre] at hok
    exact absurd hok (by simp)
  · rcases hrb : runBatches env now p.limit tpl (effBatchSize p)
        (effStatuses p) (effMaxBatches p) ⟨0, 0, 0⟩
        (if st.campaign.status = .SCHEDULED then
          { st with campaign := { st.campaign with status := .RUNNING } }
          else st) with ⟨acc1, st1, e⟩
    cases e with
    | some err =>
      have hrun : runCampaignBatched env now p st = (st1, .error err) := by
        rw [runCampaignBatched, hpre]
        dsimp only
        rw [hrb]
      rw [hrun] at hok
      exact absurd hok (by simp)
    | none =>
      have hrun : runCampaignBatched env now p st =
          (if countMatching [.QUEUED, .NEED_RETRY] st1.leads = 0 then
            { st1 with campaign := { st1.campaign with
                status := .COMPLETED, completedAt := some now } }
          else st1,
          .ok ⟨acc1.attempted, acc1.succeeded, acc1.failed⟩) := by
        rw [runCampaignBatched, hpre]
        dsimp only
        rw [hrb]
      rw [hrun] at hcount ⊢
      by_cases hp0 : countMatching [.QUEUED, .NEED_RETRY] st1.leads = 0
      · simp only [hp0, if_pos rfl]
        exact ⟨rfl, rfl⟩
      · simp only [if_neg hp0] at hcount
        exact absurd hcount hp0

/-- C7: a campaign with 10 queued leads, no pacing limit, batch size 5 and
at least 2 batches per tick attempts all 10 leads in a single dispatcher
run; and whenever a run returns and no lead is left in
`{QUEUED, NEED_RETRY}`, the campaign is `COMPLETED` with
`completedAt = now`. -/
theorem scenarioB_attempts_and_completion :
    (∀ (env : Env) (now : Nat) (p : RunParams) (st : St) (tpl : Template),
      precheck env p st.campaign = .ok tpl →
      (st.leads.map Lead.id).Nodup →
      (∀ x ∈ st.leads, digitsOf x.phoneNumber ≠ "") →
      (∀ x ∈ st.leads, x.status = .QUEUED) →
      st.leads.length = 10 →
      effStatuses p = [.QUEUED] →
      p.limit = none →
      effBatchSize p = 5 →
      2 ≤ effMaxBatches p →
      ∃ r, (runCampaignBatched env now p st).2 = .ok r ∧
        r.attempted = 10) ∧
    (∀ (env : Env) (now : Nat) (p : RunParams) (st : St) (r : RunResult),
      (runCampaignBatched env now p st).2 = .ok r →
      countMatching [.QUEUED, .NEED_RETRY]
        (runCampaignBatched env now p st).1.leads = 0 →
      (runCampaignBatched env now p st).1.campaign.status = .COMPLETED ∧
        (runCampaignBatched env now p st).1.campaign.completedAt =
          some now) := by
  constructor
  · intro env now p st tpl hpre hnd hdig hq hlen hst hlim hbsz hmb
    exact runCampaignBatched_drain_queued env now p st tpl hpre hnd hdig hq
      hlen hst hlim hbsz hmb
  · intro env now p st r hok hcount
    exact runCampaignBatched_completes env now p st r hok hcount

def st10 : St := ⟨campRun, (List.range 10).map mkLeadQ, []⟩

theorem scenarioB_attempts_and_completion_witness :
    (∃ r, (runCampaignBatched envOk 5 prmFail st10).2 = .ok r ∧
      r.attempted = 10) ∧
    (runCampaignBatched envOk 5 prmFail st10).1.campaign.status =
        .COMPLETED ∧
      (runCampaignBatched envOk 5 prmFail st10).1.campaign.completedAt =
        some 5 := by
  refine ⟨?_, ?_⟩
  · exact scenarioB_attempts_and_completion.1 envOk 5 prmFail st10 tplHello
      (by decide) (by decide) (by decide) (by decide) (by decide) (by decide)
      rfl (by decide) (by decide)
  · exact scenarioB_attempts_and_completion.2 envOk 5 prmFail st10
      ⟨10, 10, 0⟩ (by decide) (by decide)

-- ---------------------------------------------------------------------------
-- C2: end-of-window flush and the per-tick batch ceiling
-- ---------------------------------------------------------------------------

theorem runLeads_attempted_le (env : Env) (now : Nat) (limit : Option Nat)
    (tpl : Template) :
    ∀ (batch : List Lead) (acc : Counters) (bs : Nat) (st : St),
    ((runLeads env now limit tpl batch acc bs st).1).attempted ≤
      acc.attempted + batch.length := by
  intro batch
  induction batch with
  | nil => intro acc bs st; exact Nat.le_refl _
  | cons l ls ih =>
    intro acc bs st
    by_cases hb : limitReached limit acc.attempted
    · rw [runLeads_cons_break env now limit tpl l ls acc bs st hb]
      simp
    · have hb' : limitReached limit acc.attempted = false := by simpa using hb
      cases hj : toJid l.phoneNumber with
      | none =>
        rw [runLeads_cons_badphone env now limit tpl l ls acc bs st hb' hj]
        simp
      | some jid =>
        by_cases hs : env.sendOk l.id
        · rw [runLeads_cons_succ env now limit tpl l ls acc bs st jid hb' hj
            hs]
          have := ih ⟨acc.attempted + 1, acc.succeeded + 1, acc.failed⟩
            (bs + 1)
            ⟨st.campaign, updateLead st.leads l.id (succUpd now),
              st.sentLog ++ [(jid, renderTemplate tpl.body tpl.vars l)]⟩
          dsimp only at this
          simp only [List.length_cons]
          omega
        · have hs' : env.sendOk l.id = false := by simpa using hs
          rw [runLeads_cons_fail env now limit tpl l ls acc bs st jid hb' hj
            hs']
          have := ih ⟨acc.attempted + 1, acc.succeeded, acc.failed + 1⟩ bs
            ⟨st.campaign, updateLead st.leads l.id (failUpd now),
              st.sentLog ++ [(jid, renderTemplate tpl.body tpl.vars l)]⟩
          dsimp only at this
          simp only [List.length_cons]
          omega

theorem runBatches_attempted_le (env : Env) (now : Nat) (limit : Option Nat)
    (tpl : Template) (batchSize : Nat) (filter : List OutboundLeadStatus) :
    ∀ (fuel : Nat) (acc : Counters) (st : St),
    ((runBatches env now limit tpl batchSize filter fuel acc st).1).attempted ≤
      acc.attempted + fuel * batchSize := by
  intro fuel
  induction fuel with
  | zero =>
    intro acc st
    have h0 : (runBatches env now limit tpl batchSize filter 0 acc
        st).1.attempted = acc.attempted := rfl
    omega
  | succ fuel ih =>
    intro acc st
    have hmul2 : (fuel + 1) * batchSize = fuel * batchSize + batchSize := by
      ring
    rw [runBatches]
    by_cases hb : limitReached limit acc.attempted
    · simp [hb]
    · simp only [hb, Bool.false_eq_true, if_false]
      by_cases hr : remainingForRun limit acc.attempted batchSize = 0
      · simp [hr]
      · simp only [hr, if_false]
        set batch := (st.leads.filter (leadMatches filter)).take
          (remainingForRun limit acc.attempted batchSize) with hbatch
        by_cases he : batch.isEmpty
        · simp [he]
        · simp only [he, Bool.false_eq_true, if_false]
          have hbl : batch.length ≤ batchSize := by
            have hlt := List.length_take (remainingForRun limit acc.attempted
              batchSize) (st.leads.filter (leadMatches filter))
            have h2 : remainingForRun limit acc.attempted batchSize ≤
                batchSize := by
              cases limit with
              | none => simp [remainingForRun]
              | some L => simp [remainingForRun]
            rw [hbatch, hlt]
            omega
          have hle := runLeads_attempted_le env now limit tpl batch acc 0 st
          rcases hrl : runLeads env now limit tpl batch acc 0 st with
            ⟨acc1, bs1, st1, e⟩
          rw [hrl] at hle
          dsimp only at hle
          cases e with
          | some err => dsimp only; omega
          | none =>
            dsimp only
            split_ifs <;> (try dsimp only) <;>
              first
                | omega
                | (have h2 := ih acc1 (recordBatchActivity st1 bs1 now)
                   omega)
                | (have h2 := ih acc1 st1
                   omega)

/-- C2 (amended): once `now ≥ endAt`, the tick sets the allowance to the
full count of leads matching the filter and marks `pacing.completed = true`
if not already; the dispatcher run, however, attempts at most
`maxBatchesPerTick * batchSize` sends, so the tick drains all matching
leads only when their count fits under that ceiling. -/
theorem endOfWindow_flush_bounded :
    (∀ (now cnt : Nat) (cfg : Cfg) (d : Nat) (p : Pacing),
      cfg.durationMs = some d → d ≠ 0 → cfg.pacing = some p →
      p.startAt ≤ p.endAt → p.endAt ≤ now →
      (pacingStep now cnt cfg).1 = some (cnt : Int) ∧
      (pacingStep now cnt cfg).2.1.pacing.map Pacing.completed =
        some true) ∧
    (∀ (env : Env) (now : Nat) (p : RunParams) (st : St) (r : RunResult),
      (runCampaignBatched env now p st).2 = .ok r →
      r.attempted ≤ effMaxBatches p * effBatchSize p) := by
  constructor
  · intro now cnt cfg d p hd hd0 hp hw hend
    rw [pacingStep, hp]
    simp only [hd, Option.getD_some, if_neg hd0]
    cases hq : p.initialTotal with
    | none =>
      simp only [hq, Option.isNone_none, ite_true]
      rw [if_neg (by omega), if_pos (by omega)]
      constructor
      · rfl
      · split <;> simp_all
    | some T =>
      simp only [hq, Option.isNone_some, Bool.false_eq_true, ite_false]
      rw [if_neg (by omega), if_pos (by omega)]
      constructor
      · rfl
      · split <;> simp_all
  · intro env now p st r hok
    rcases hpre : precheck env p st.campaign with e | tpl
    · rw [runCampaignBatched, hpre] at hok
      exact absurd hok (by simp)
    · have hbnd := runBatches_attempted_le env now p.limit tpl
        (effBatchSize p) (effStatuses p) (effMaxBatches p) ⟨0, 0, 0⟩
        (if st.campaign.status = .SCHEDULED then
          { st with campaign := { st.campaign with status := .RUNNING } }
          else st)
      rcases hrb : runBatches env now p.limit tpl (effBatchSize p)
          (effStatuses p) (effMaxBatches p) ⟨0, 0, 0⟩
          (if st.campaign.status = .SCHEDULED then
            { st with campaign := { st.campaign with status := .RUNNING } }
            else st) with ⟨acc1, st1, e⟩
      rw [hrb] at hbnd
      dsimp only at hbnd
      cases e with
      | some err =>
        have hrun : runCampaignBatched env now p st = (st1, .error err) := by
          rw [runCampaignBatched, hpre]
          dsimp only
          rw [hrb]
        rw [hrun] at hok
        exact absurd hok (by simp)
      | none =>
        have hrun : runCampaignBatched env now p st =
            (if countMatching [.QUEUED, .NEED_RETRY] st1.leads = 0 then
              { st1 with campaign := { st1.campaign with
                  status := .COMPLETED, completedAt := some now } }
            else st1,
            .ok ⟨acc1.attempted, acc1.succeeded, acc1.failed⟩) := by
          rw [runCampaignBatched, hpre]
          dsimp only
          rw [hrb]
        rw [hrun] at hok
        simp only [Prod.snd, Except.ok.injEq] at hok
        rw [← hok]
        dsimp only
        omega

def pC2 : Pacing := ⟨100, 200, some 2, 0, false⟩

def cfgC2 : Cfg :=
  ⟨none, none, none, some 1, some 0, some "1m", some 60000, some pC2⟩

def campC2 : Campaign :=
  { id := 5, agentId := 9, name := "f", ctype := .SINGLE, status := .SCHEDULED
    agentEnabled := true, scheduledAt := some 100, startedAt := none
    completedAt := none, cancelledAt := none, assignedTemplate := some 7
    totalMessages := 0, leadsCount := 2, answeredLeadsCount := 0
    lastActivityAt := none, config := some cfgC2 }

def stC2 : St := ⟨campC2, [mkLeadQ 0, mkLeadQ 1], []⟩

/-- C2 counterexample: a due tick past the window end (`endAt = 200 ≤
now = 500`) with two matching leads, `batch.size = 1` and
`maxBatchesPerCampaign = 1`, with every send succeeding, still leaves one
lead `QUEUED` after the tick even though `pacing.completed` was set —
refuting "drains all of those leads in that single tick". -/
theorem endOfWindow_flush_bounded_cex :
    dueFilter campC2 500 = true ∧
    cfgC2.pacing.map Pacing.endAt = some 200 ∧
    200 ≤ 500 ∧
    countMatching [.QUEUED] (processCampaign envOk opts1 500 stC2).1.leads
      = 1 ∧
    ((processCampaign envOk opts1 500 stC2).1.campaign.config.getD
        emptyCfg).pacing.map Pacing.completed = some true := by
  decide

theorem endOfWindow_flush_bounded_witness :
    ((pacingStep 500 2 cfgC2).1 = some ((2 : Nat) : Int) ∧
      (pacingStep 500 2 cfgC2).2.1.pacing.map Pacing.completed =
        some true) ∧
    (⟨10, 10, 0⟩ : RunResult).attempted ≤
      effMaxBatches prmFail * effBatchSize prmFail :=
  ⟨endOfWindow_flush_bounded.1 500 2 cfgC2 60000 pC2 rfl (by decide) rfl
      (by decide) (by decide),
    endOfWindow_flush_bounded.2 envOk 5 prmFail st10 ⟨10, 10, 0⟩
      (by decide)⟩

-- ---------------------------------------------------------------------------
-- C9: a digit-less phone number aborts the run before the messenger call
-- ---------------------------------------------------------------------------

theorem runLeads_badphone (env : Env) (now : Nat) (tpl : Template)
    (bad : Lead) (hbad : digitsOf bad.phoneNumber = "") :
    ∀ (good : List Lead) (rest : List Lead) (acc : Counters) (bs : Nat)
      (st : St),
    (∀ x ∈ good, digitsOf x.phoneNumber ≠ "") →
    bad.id ∉ good.map Lead.id →
    ∃ acc1 bs1 st1,
      runLeads env now none tpl (good ++ bad :: rest) acc bs st =
        (acc1, bs1, st1, some .invalidPhone) ∧
      st1.campaign = st.campaign ∧
      st1.leads.map Lead.id = st.leads.map Lead.id ∧
      (∀ x ∈ st.leads, x.id ∉ good.map Lead.id → x ∈ st1.leads) ∧
      st1.sentLog.length = st.sentLog.length + good.length := by
  intro good
  induction good with
  | nil =>
    intro rest acc bs st _ _
    have hj : toJid bad.phoneNumber = none := by simp [toJid, hbad]
    refine ⟨⟨acc.attempted + 1, acc.succeeded, acc.failed⟩, bs, st, ?_, rfl,
      rfl, fun x hx _ => hx, by simp⟩
    simpa using runLeads_cons_badphone env now none tpl bad rest acc bs st
      rfl hj
  | cons g gs ih =>
    intro rest acc bs st hgood hbid
    have hdigg : digitsOf g.phoneNumber ≠ "" := hgood g (by simp)
    have hj : toJid g.phoneNumber =
        some (digitsOf g.phoneNumber ++ "@s.whatsapp.net") := by
      simp [toJid, hdigg]
    have hbid1 : bad.id ∉ gs.map Lead.id := by
      intro hc
      exact hbid (by simp [hc])
    have hbidg : bad.id ≠ g.id := by
      intro hc
      exact hbid (by simp [hc])
    by_cases hs : env.sendOk g.id
    · set st' : St := ⟨st.campaign, updateLead st.leads g.id (succUpd now),
        st.sentLog ++ [(digitsOf g.phoneNumber ++ "@s.whatsapp.net",
          renderTemplate tpl.body tpl.vars g)]⟩ with hst'
      obtain ⟨acc1, bs1, st1, heq, hc, hid, hmem, hlog⟩ :=
        ih rest ⟨acc.attempted + 1, acc.succeeded + 1, acc.failed⟩ (bs + 1)
          st' (fun x hx => hgood x (by simp [hx])) hbid1
      refine ⟨acc1, bs1, st1, ?_, hc, ?_, ?_, ?_⟩
      · rw [List.cons_append,
          runLeads_cons_succ env now none tpl g (gs ++ bad :: rest) acc bs st
            _ rfl hj hs]
        exact heq
      · rw [hid]
        exact updateLead_map Lead.id _ (succUpd_id now) _ _
      · intro x hx hnx
        have hxg : x.id ≠ g.id := by
          intro hc
          exact hnx (by simp [hc])
        have hx' : x ∈ st'.leads :=
          mem_updateLead_of_ne g.id (succUpd now) hx hxg
        exact hmem x hx' (fun hc => hnx (by simp [hc]))
      · rw [hlog]
        simp [List.length_append]
        omega
    · have hs' : env.sendOk g.id = false := by simpa using hs
      set st' : St := ⟨st.campaign, updateLead st.leads g.id (failUpd now),
        st.sentLog ++ [(digitsOf g.phoneNumber ++ "@s.whatsapp.net",
          renderTemplate tpl.body tpl.vars g)]⟩ with hst'
      obtain ⟨acc1, bs1, st1, heq, hc, hid, hmem, hlog⟩ :=
        ih rest ⟨acc.attempted + 1, acc.succeeded, acc.failed + 1⟩ bs
          st' (fun x hx => hgood x (by simp [hx])) hbid1
      refine ⟨acc1, bs1, st1, ?_, hc, ?_, ?_, ?_⟩
      · rw [List.cons_append,
          runLeads_cons_fail env now none tpl g (gs ++ bad :: rest) acc bs st
            _ rfl hj hs']
        exact heq
      · rw [hid]
        exact updateLead_map Lead.id _ (failUpd_id now) _ _
      · intro x hx hnx
        have hxg : x.id ≠ g.id := by
          intro hc
          exact hnx (by simp [hc])
        have hx' : x ∈ st'.leads :=
          mem_updateLead_of_ne g.id (failUpd now) hx hxg
        exact hmem x hx' (fun hc => hnx (by simp [hc]))
      · rw [hlog]
        simp [List.length_append]
        omega

theorem effBatchSize_pos (p : RunParams) : 1 ≤ effBatchSize p :=
  Nat.le_max_left 1 _

theorem effMaxBatches_pos (p : RunParams) : 1 ≤ effMaxBatches p :=
  Nat.le_max_left 1 _

theorem runCampaignBatched_badphone (env : Env) (now : Nat) (p : RunParams)
    (st : St) (tpl : Template) (good : List Lead) (bad : Lead)
    (rest : List Lead)
    (hpre : precheck env p st.campaign = .ok tpl)
    (hfilter : st.leads.filter (leadMatches (effStatuses p)) =
      good ++ bad :: rest)
    (hlim : p.limit = none)
    (hlen : (good ++ bad :: rest).length ≤ effBatchSize p)
    (hgood : ∀ x ∈ good, digitsOf x.phoneNumber ≠ "")
    (hbad : digitsOf bad.phoneNumber = "")
    (hbid : bad.id ∉ good.map Lead.id) :
    ∃ st1,
      runCampaignBatched env now p st = (st1, .error .invalidPhone) ∧
      (∀ x ∈ st.leads, x.id ∉ good.map Lead.id → x ∈ st1.leads) ∧
      st1.sentLog.length = st.sentLog.length + good.length := by
  rw [runCampaignBatched, hpre]
  dsimp only
  have hleads : (if st.campaign.status = .SCHEDULED then
      { st with campaign := { st.campaign with status := .RUNNING } }
      else st).leads = st.leads := by
    split <;> rfl
  have hlog0 : (if st.campaign.status = .SCHEDULED then
      { st with campaign := { st.campaign with status := .RUNNING } }
      else st).sentLog = st.sentLog := by
    split <;> rfl
  obtain ⟨f, hf⟩ : ∃ f, effMaxBatches p = f + 1 :=
    ⟨effMaxBatches p - 1, by have := effMaxBatches_pos p; omega⟩
  rw [hf, hlim, runBatches]
  have hb : limitReached none (0 : Nat) = false := rfl
  have hr : remainingForRun none 0 (effBatchSize p) = effBatchSize p := rfl
  simp only [hb, Bool.false_eq_true, if_false, hr]
  have hbne : ¬ effBatchSize p = 0 := by
    have := effBatchSize_pos p
    omega
  simp only [hbne, if_false]
  have hbatch : ((if st.campaign.status = .SCHEDULED then
        { st with campaign := { st.campaign with status := .RUNNING } }
        else st).leads.filter
          (leadMatches (effStatuses p))).take (effBatchSize p) =
      good ++ bad :: rest := by
    rw [hleads, hfilter]
    exact List.take_of_length_le hlen
  rw [hbatch]
  have hne : (good ++ bad :: rest).isEmpty = false := by
    cases good <;> rfl
  simp only [hne, Bool.false_eq_true, if_false]
  obtain ⟨acc1, bs1, st1, heq, hc, hid, hmem, hlog⟩ :=
    runLeads_badphone env now tpl bad hbad good rest ⟨0, 0, 0⟩ 0
      (if st.campaign.status = .SCHEDULED then
        { st with campaign := { st.campaign with status := .RUNNING } }
        else st) hgood hbid
  rw [heq]
  refine ⟨st1, rfl, ?_, ?_⟩
  · intro x hx hnx
    rw [← hleads] at hx
    exact hmem x hx hnx
  · rw [hlog, hlog0]

/-- C9: when the batch reaches a lead whose phone number has no digits,
`toJid` throws outside the per-lead try/catch: the leads before it are
processed, the run then stops with the validation error, no messenger call
is logged for the bad lead or any later lead (the send log grows by exactly
the number of good leads processed before it), and every lead not among
those processed — the bad lead included — is still present unchanged in
the store; the whole `runCampaignBatched` invocation reports the error. -/
theorem badphone_aborts_run :
    (∀ (env : Env) (now : Nat) (tpl : Template) (bad : Lead)
        (good rest : List Lead) (acc : Counters) (bs : Nat) (st : St),
      digitsOf bad.phoneNumber = "" →
      (∀ x ∈ good, digitsOf x.phoneNumber ≠ "") →
      bad.id ∉ good.map Lead.id →
      ∃ acc1 bs1 st1,
        runLeads env now none tpl (good ++ bad :: rest) acc bs st =
          (acc1, bs1, st1, some .invalidPhone) ∧
        st1.leads.map Lead.id = st.leads.map Lead.id ∧
        (∀ x ∈ st.leads, x.id ∉ good.map Lead.id → x ∈ st1.leads) ∧
        st1.sentLog.length = st.sentLog.length + good.length) ∧
    (∀ (env : Env) (now : Nat) (p : RunParams) (st : St) (tpl : Template)
        (good : List Lead) (bad : Lead) (rest : List Lead),
      precheck env p st.campaign = .ok tpl →
      st.leads.filter (leadMatches (effStatuses p)) = good ++ bad :: rest →
      p.limit = none →
      (good ++ bad :: rest).length ≤ effBatchSize p →
      (∀ x ∈ good, digitsOf x.phoneNumber ≠ "") →
      digitsOf bad.phoneNumber = "" →
      bad.id ∉ good.map Lead.id →
      ∃ st1,
        runCampaignBatched env now p st = (st1, .error .invalidPhone) ∧
        (∀ x ∈ st.leads, x.id ∉ good.map Lead.id → x ∈ st1.leads) ∧
        st1.sentLog.length = st.sentLog.length + good.length) := by
  constructor
  · intro env now tpl bad good rest acc bs st hbad hgood hbid
    obtain ⟨acc1, bs1, st1, heq, _, hid, hmem, hlog⟩ :=
      runLeads_badphone env now tpl bad hbad good rest acc bs st hgood hbid
    exact ⟨acc1, bs1, st1, heq, hid, hmem, hlog⟩
  · intro env now p st tpl good bad rest hpre hfilter hlim hlen hgood hbad
      hbid
    exact runCampaignBatched_badphone env now p st tpl good bad rest hpre
      hfilter hlim hlen hgood hbad hbid

def leadBad : Lead := ⟨1, "abc", .QUEUED, 0, none, [], []⟩

def stBadPh : St := ⟨campRun, [mkLeadQ 0, leadBad, mkLeadQ 2], []⟩

theorem badphone_aborts_run_witness :
    ∃ st1,
      runCampaignBatched envOk 5 prmFail stBadPh =
        (st1, .error .invalidPhone) ∧
      (∀ x ∈ stBadPh.leads, x.id ∉ [mkLeadQ 0].map Lead.id →
        x ∈ st1.leads) ∧
      st1.sentLog.length = stBadPh.sentLog.length + [mkLeadQ 0].length :=
  badphone_aborts_run.2 envOk 5 prmFail stBadPh tplHello [mkLeadQ 0] leadBad
    [mkLeadQ 2] (by decide) (by decide) rfl (by decide) (by decide)
    (by decide) (by decide)
